import Mathlib

/-!
Verification development for the Vix source-to-C compiler front end.

The definitions below are a shallow embedding of the Rust sources under
`src/`: the parser helper operations (`src/Token/helper/operations.rs`),
fragments of the recursive-descent parser (`src/Token/parser.rs`), the
undefined-function analysis (`src/Token/parser.rs`), and the C code
generator (`src/Gen/build/unknow.rs`, `src/Gen/build/helper/functions.rs`,
`src/Gen/build/library/module.rs`).  Data definitions that live in files
not present under `src/` (the `Type`, `Expr` and `Stmt` enums from
`Token/storge/ast.rs`, the diagnostics sink from `Gen/API/error.rs`) are
modelled from the specification, as marked in their doc comments.
-/

set_option maxHeartbeats 4000000

namespace Vix

/-- Modelled from the spec: the token enum (`Token/storge/token.rs` is not
under `src/`).  Variants are those referenced by the embedded parser
fragments; token identity is by variant, with string payloads inside the
variant (spec section 3.1). -/
inductive Token where
  | Let | Mut | Mutable | Colon | Equals | Semicolon
  | identifier (s : String) | typeIdentifier (s : String)
  | EOF | End | Pub | Mod | Func | Struct | Enum
  | LeftParen | RightParen | LeftBracket | RightBracket
  | Arrow | Comma | Star | Slash | Percent | Hash
  | Import | From | Selfish | Reference | Ampersand | BitwiseAnd
  | Bool | Void | Any | Str | StdStr | TripleDot | Tilde
  | Option | Result | Trait | Caret
  | Unsafe | Return | Break | Continue | If | Else | While | For | Match
  deriving Repr

/-- Constructor index of a token (payload ignored); only used to define
decidable equality of tokens without a quadratic-size matcher. -/
def Token.tag : Token → Nat
  | .Let => 0
  | .Mut => 1
  | .Mutable => 2
  | .Colon => 3
  | .Equals => 4
  | .Semicolon => 5
  | .identifier _ => 6
  | .typeIdentifier _ => 7
  | .EOF => 8
  | .End => 9
  | .Pub => 10
  | .Mod => 11
  | .Func => 12
  | .Struct => 13
  | .Enum => 14
  | .LeftParen => 15
  | .RightParen => 16
  | .LeftBracket => 17
  | .RightBracket => 18
  | .Arrow => 19
  | .Comma => 20
  | .Star => 21
  | .Slash => 22
  | .Percent => 23
  | .Hash => 24
  | .Import => 25
  | .From => 26
  | .Selfish => 27
  | .Reference => 28
  | .Ampersand => 29
  | .BitwiseAnd => 30
  | .Bool => 31
  | .Void => 32
  | .Any => 33
  | .Str => 34
  | .StdStr => 35
  | .TripleDot => 36
  | .Tilde => 37
  | .Option => 38
  | .Result => 39
  | .Trait => 40
  | .Caret => 41
  | .Unsafe => 42
  | .Return => 43
  | .Break => 44
  | .Continue => 45
  | .If => 46
  | .Else => 47
  | .While => 48
  | .For => 49
  | .Match => 50

/-- The string payload of a token (empty for payload-free constructors);
only used to define decidable equality of tokens. -/
def Token.payload : Token → String
  | .identifier s => s
  | .typeIdentifier s => s
  | _ => ""

/-- Rebuild a token from its constructor index and payload; inverse of
`Token.tag`/`Token.payload`, only used to define decidable equality. -/
def Token.ofKey : Nat → String → Token
  | 0, _ => .Let
  | 1, _ => .Mut
  | 2, _ => .Mutable
  | 3, _ => .Colon
  | 4, _ => .Equals
  | 5, _ => .Semicolon
  | 6, s => .identifier s
  | 7, s => .typeIdentifier s
  | 8, _ => .EOF
  | 9, _ => .End
  | 10, _ => .Pub
  | 11, _ => .Mod
  | 12, _ => .Func
  | 13, _ => .Struct
  | 14, _ => .Enum
  | 15, _ => .LeftParen
  | 16, _ => .RightParen
  | 17, _ => .LeftBracket
  | 18, _ => .RightBracket
  | 19, _ => .Arrow
  | 20, _ => .Comma
  | 21, _ => .Star
  | 22, _ => .Slash
  | 23, _ => .Percent
  | 24, _ => .Hash
  | 25, _ => .Import
  | 26, _ => .From
  | 27, _ => .Selfish
  | 28, _ => .Reference
  | 29, _ => .Ampersand
  | 30, _ => .BitwiseAnd
  | 31, _ => .Bool
  | 32, _ => .Void
  | 33, _ => .Any
  | 34, _ => .Str
  | 35, _ => .StdStr
  | 36, _ => .TripleDot
  | 37, _ => .Tilde
  | 38, _ => .Option
  | 39, _ => .Result
  | 40, _ => .Trait
  | 41, _ => .Caret
  | 42, _ => .Unsafe
  | 43, _ => .Return
  | 44, _ => .Break
  | 45, _ => .Continue
  | 46, _ => .If
  | 47, _ => .Else
  | 48, _ => .While
  | 49, _ => .For
  | 50, _ => .Match
  | _, _ => .EOF

instance : DecidableEq Token := fun a b =>
  if h : a.tag = b.tag ∧ a.payload = b.payload then
    .isTrue (by
      have ha : Token.ofKey a.tag a.payload = a := by cases a <;> rfl
      have hb : Token.ofKey b.tag b.payload = b := by cases b <;> rfl
      rw [h.1, h.2, hb] at ha
      exact ha.symm)
  else
    .isFalse (fun he => h (by rw [he]; exact ⟨rfl, rfl⟩))

/-- Source span, a byte range (miette `SourceSpan`). -/
structure SourceSpan where
  start : Nat
  len : Nat
  deriving DecidableEq, Repr

/-- `DiagnosticSeverity` from `Token/storge/ast.rs` (usage in
`src/Token/helper/operations.rs`). -/
inductive DiagnosticSeverity where
  | error
  | warning
  deriving DecidableEq, Repr

/-- `ParseDiagnostic { message, span, severity, help }` as pushed by
`Parser::expect` in `src/Token/helper/operations.rs`. -/
structure ParseDiagnostic where
  message : String
  span : SourceSpan
  severity : DiagnosticSeverity
  help : Option String
  deriving DecidableEq, Repr

/-- The parser state: token buffer, parallel span buffer, cursor and
accumulated diagnostics (fields of `Parser` used by the embedded
fragments; `Parser::new` in `src/Token/parser.rs`). -/
structure Parser where
  tokens : List Token
  spans : List SourceSpan
  pos : Nat
  diags : List ParseDiagnostic
  deriving Repr

namespace Parser

/-- `Parser::current` (`src/Token/helper/operations.rs` line 5):
`self.tokens.get(self.pos).cloned().unwrap_or(Token::EOF)`. -/
def current (p : Parser) : Token :=
  (p.tokens.get? p.pos).getD Token.EOF

/-- `Parser::peek` (`src/Token/helper/operations.rs` line 9). -/
def peek (p : Parser) (n : Nat) : Token :=
  (p.tokens.get? (p.pos + n)).getD Token.EOF

/-- `Parser::advance` (`src/Token/helper/operations.rs` line 13). -/
def advance (p : Parser) : Parser :=
  { p with pos := p.pos + 1 }

/-- `Parser::current_span` (`src/Token/helper/operations.rs` line 17). -/
def currentSpan (p : Parser) : SourceSpan :=
  (p.spans.get? p.pos).getD ⟨0, 0⟩

/-- The recovery loop of `Parser::expect`
(`src/Token/helper/operations.rs` lines 39-53): while `pos < tokens.len`
and `skipped < 50`, consume `expected` if found, stop unconsumed at a
sync-set member or at `EOF`, otherwise skip one token. -/
def expectLoop (p : Parser) (expected : Token) (sync : List Token)
    (skipped : Nat) : Parser :=
  if _h : p.pos < p.tokens.length ∧ skipped < 50 then
    let currentToken := p.current
    if currentToken = expected then
      p.advance
    else if sync.contains currentToken then
      p
    else if currentToken = Token.EOF then
      p
    else
      expectLoop p.advance expected sync (skipped + 1)
  else
    p
  termination_by 50 - skipped
  decreasing_by omega

/-- `Parser::expect` (`src/Token/helper/operations.rs` lines 21-54):
consume the expected token if current, otherwise record one error
diagnostic and run the synchronizing recovery loop (`max_skip = 50`). -/
def expect (p : Parser) (expected : Token) (sync : List Token) : Parser :=
  let current := p.current
  if current = expected then
    p.advance
  else
    let p' : Parser :=
      { p with diags := p.diags ++
          [{ message := "Expected token not found"
           , span := p.currentSpan
           , severity := DiagnosticSeverity.error
           , help := none }] }
    expectLoop p' expected sync 0

end Parser

/-- Modelled from the spec: the recursive `Type` sum of spec section 3.2
(its definition lives in `Token/storge/ast.rs`, which is not under
`src/`).  The variant list follows the spec; the variants matched by the
functions under `src/` (`types_compatible`, `codegen_compound_assign`,
`codegen_call_stmt`) carry the payloads those matches use. -/
inductive VType where
  | int (bits : Nat) (signed : Bool)
  | float (bits : Nat)
  | bool
  | char (bits : Nat)
  | void
  | usize
  | any
  | tripleDot
  | traitTy
  | selfType
  | constStr
  | str (lenType : Nat)
  | stdStr
  | ptr (inner : VType)
  | rawPtr (inner : VType)
  | ref (inner : VType)
  | mutRef (inner : VType)
  | owned (inner : VType)
  | constTy (inner : VType)
  | array (element : VType) (size : Option Nat)
  | multiArray (element : VType) (dims : Nat)
  | tuple (fields : List VType)
  | structTy (name : String)
  | optionTy (inner : VType)
  | resultTy (ok : VType) (err : VType)
  | hashMap (key : VType) (value : VType)
  | unionTy (variants : List VType)
  | intersection (types : List VType)
  | auto

namespace VType

/-- `Type::i32()` constructor helper (used throughout the sources;
modelled from the spec's primitive table). -/
def i32 : VType := VType.int 32 true

mutual

/-- `Codegen::types_compatible` (`src/Gen/build/unknow.rs` lines
550-587); the match rows are in source order. -/
def typesCompatible : VType → VType → Bool
  | .int b1 s1, .int b2 s2 => b1 == b2 && s1 == s2
  | .float b1, .float b2 => b1 == b2
  | .bool, .bool => true
  | .void, .void => true
  | .char _, .char _ => true
  | .str _, .str _ => true
  | .constStr, .constStr => true
  | .constStr, .str _ => true
  | .constStr, .stdStr => true
  | .str _, .constStr => true
  | .stdStr, .constStr => true
  | .stdStr, .stdStr => true
  | .str _, .stdStr => true
  | .stdStr, .str _ => true
  | .ptr inner1, .ptr inner2 => typesCompatible inner1 inner2
  | .structTy n1, .structTy n2 => n1 == n2
  | .array e1 s1, .array e2 s2 => typesCompatible e1 e2 && s1 == s2
  | .tuple f1, .tuple f2 => typesCompatibleList f1 f2
  | .optionTy i1, .optionTy i2 => typesCompatible i1 i2
  | .resultTy o1 e1, .resultTy o2 e2 =>
      typesCompatible o1 o2 && typesCompatible e1 e2
  | .constTy i1, .constTy i2 => typesCompatible i1 i2
  | .constTy i1, other => typesCompatible i1 other
  | other, .constTy i2 => typesCompatible other i2
  | .hashMap k1 v1, .hashMap k2 v2 =>
      typesCompatible k1 k2 && typesCompatible v1 v2
  | _, _ => false

/-- The tuple-field comparison of `types_compatible`
(`src/Gen/build/unknow.rs` lines 571-574): the source's length check
followed by a zip-and-all of elementwise compatibility, folded into one
structural recursion. -/
def typesCompatibleList : List VType → List VType → Bool
  | [], [] => true
  | t1 :: r1, t2 :: r2 => typesCompatible t1 t2 && typesCompatibleList r1 r2
  | _, _ => false

end

end VType

/-- `ParamModifier` from `Token/storge/ast.rs` (variants used in
`parse_function_with_visibility`, `src/Token/parser.rs` lines 1766-1781). -/
inductive ParamModifier where
  | immutable
  | mutable
  | reference
  | mutableReference
  deriving DecidableEq, Repr

mutual

/-- Modelled from the spec: the expression sum of spec section 3.3
(`Token/storge/expr.rs` is not under `src/`).  Variants carry the
payloads used by the parser fragments and the undefined-function
analysis in `src/Token/parser.rs`; the remaining spec-listed variants
(`CallNamed`, `OneOf`, `OffsetOf`, `AlignOf`, `TypeOf`, `FuncAddr`,
`Plan`, slices, hashmap constructors) take no part in any embedded
operation and are represented by the same catch-all behaviour.
Expression sequences (`Vec<Expr>` in the source) are mirrored by the
mutual list type `Exprs` so that the traversals over the tree are
structurally recursive. -/
inductive Expr where
  | number (n : Int)
  | stringLit (s : String)
  | boolLit (b : Bool)
  | noneLit
  | someE (e : Expr)
  | okE (e : Expr)
  | errE (e : Expr)
  | var (name : String)
  | call (name : String) (args : Exprs)
  | methodCall (obj : Expr) (method : String) (args : Exprs)
  | staticMethodCall (typeName : String) (method : String) (args : Exprs)
  | moduleCall (module : String) (func : String) (args : Exprs)
  | moduleAccess (module : String) (member : String)
  | memberAccess (obj : Expr) (field : String)
  | index (obj : Expr) (indices : Exprs)
  | tuple (elements : Exprs)
  | array (elements : Exprs)
  | binOp (op : String) (lhs : Expr) (rhs : Expr)
  | unOp (op : String) (e : Expr)

/-- A sequence of expressions (`Vec<Expr>`). -/
inductive Exprs where
  | nil
  | cons (head : Expr) (tail : Exprs)

end

/-- The `Vec::len` of an expression sequence (the `args.len()` of the
undefined-call records in `src/Token/parser.rs` lines 2768 and 2838). -/
def Exprs.length : Exprs → Nat
  | .nil => 0
  | .cons _ tail => tail.length + 1

mutual

/-- Modelled from the spec: the statement sum of spec section 3.3
(`Token/storge/ast.rs` is not under `src/`).  Variant list and payloads
follow the spec and the matches in `src/Token/parser.rs` (`parse_stmt`,
`stmt_calls`) and `src/Gen/build/library/module.rs` (`codegen_module`).
Statement sequences (`Vec<Stmt>`) are mirrored by the mutual list type
`Stmts`, and case lists by `MatchCases`, so that the traversals over
the tree are structurally recursive. -/
inductive Stmt where
  | typedDeclaration (name : String) (ty : VType) (value : Expr) (isMutable : Bool)
  | tupleUnpack (names : List String) (value : Expr)
  | assign (name : String) (value : Expr)
  | compoundAssign (name : String) (op : String) (value : Expr)
  | indexAssign (obj : Expr) (indices : Exprs) (value : Expr)
  | memberAssign (obj : Expr) (field : String) (value : Expr)
  | moduleAssign (module : String) (member : String) (value : Expr)
  | moduleCompoundAssign (module : String) (member : String) (op : String) (value : Expr)
  | ifS (cond : Expr) (thenBody : Stmts) (elseBody : Option Stmts)
  | whileS (cond : Expr) (body : Stmts)
  | forS (var : String) (iter : Expr) (body : Stmts)
  | matchS (scrutinee : Expr) (cases : MatchCases) (default : Option Stmts)
  | returnS (value : Option Expr)
  | breakS
  | continueS
  | scope (body : Stmts)
  | unsafeS (body : Stmts)
  | call (name : String) (args : Exprs)
  | moduleCall (module : String) (func : String) (args : Exprs)
  | exprS (e : Expr)
  | function (f : Function)
  | structDefS (name : String)
  | enumDefS (name : String)
  | moduleDef (name : String) (body : Stmts) (isPublic : Bool)
  | typeAlias (name : String) (ty : VType)
  | moduleExports (names : List String)

/-- A sequence of statements (`Vec<Stmt>`). -/
inductive Stmts where
  | nil
  | cons (head : Stmt) (tail : Stmts)

/-- `MatchCase` (value expression plus case body), as traversed by
`stmt_calls` in `src/Token/parser.rs` lines 2798-2807. -/
inductive MatchCase where
  | mk (value : Expr) (body : Stmts)

/-- A sequence of match cases (`Vec<MatchCase>`). -/
inductive MatchCases where
  | nil
  | cons (head : MatchCase) (tail : MatchCases)

/-- The `Function` record built by `parse_function_with_visibility`
(`src/Token/parser.rs` lines 1831-1838): name, parameters, return type,
body, visibility and attributes. -/
inductive Function where
  | mk (name : String) (params : List (String × VType × ParamModifier))
       (returnType : VType) (body : Stmts) (isPublic : Bool)
       (attributes : List String)

end

/-- Field accessor for `Function.name`. -/
def Function.name : Function → String
  | .mk n _ _ _ _ _ => n

/-- Field accessor for `Function.params`. -/
def Function.params : Function → List (String × VType × ParamModifier)
  | .mk _ p _ _ _ _ => p

/-- Field accessor for `Function.returnType`. -/
def Function.returnType : Function → VType
  | .mk _ _ r _ _ _ => r

/-- Field accessor for `Function.body`. -/
def Function.body : Function → Stmts
  | .mk _ _ _ b _ _ => b

/-- Field accessor for `Function.isPublic`. -/
def Function.isPublic : Function → Bool
  | .mk _ _ _ _ p _ => p

/-- `ExternFunction` (name, parameters, return type) as used by the
extern arms of `find_undefined_functions`, `src/Token/parser.rs` lines
2723-2737; the ABI payloads take no part in the analysis. -/
structure ExternFunction where
  name : String
  params : List (String × VType)
  returnType : VType

/-- `ExternDecl` variants matched by `find_undefined_functions`
(`src/Token/parser.rs` lines 2724-2736). -/
inductive ExternDecl where
  | single (func : ExternFunction)
  | singleWithBody (func : ExternFunction)
  | block (functions : List ExternFunction)

/-- `ImportDecl` (`src/Token/parser.rs` `parse_import`, lines
1841-1881). -/
inductive ImportDecl where
  | libraryImport (name : String)
  | fileImport (name : String) (from_ : String)
  | wildcardImport (from_ : String)

/-- `ImportContext` (`src/Token/parser.rs` lines 3-9): library names,
symbol-to-library mapping, module exports and the `core` auto-import
flag.  The Rust `HashSet`/`HashMap` fields are modelled as lists with
membership lookup. -/
structure ImportContext where
  library_imports : List String
  symbol_imports : List (String × String)
  module_exports : List (String × List String)
  auto_imported : Bool

namespace ImportContext

/-- `ImportContext::new` (`src/Token/parser.rs` lines 32-39). -/
def new : ImportContext :=
  { library_imports := [], symbol_imports := [], module_exports := []
  , auto_imported := false }

/-- `ImportContext::is_library_function` (`src/Token/parser.rs` lines
41-43). -/
def is_library_function (c : ImportContext) (name : String) : Bool :=
  c.library_imports.contains name

/-- `ImportContext::is_imported_symbol` (`src/Token/parser.rs` lines
45-47). -/
def is_imported_symbol (c : ImportContext) (name : String) : Bool :=
  (c.symbol_imports.lookup name).isSome

/-- `ImportContext::add_core_imports` (`src/Token/parser.rs` lines
53-58). -/
def add_core_imports (c : ImportContext) : ImportContext :=
  if c.auto_imported then c
  else { c with
          library_imports := c.library_imports ++ ["core"],
          auto_imported := true }

/-- `ImportContext::is_module_function` (`src/Token/parser.rs` lines
64-66). -/
def is_module_function (c : ImportContext) (name : String) : Bool :=
  c.module_exports.any (fun p => p.2.contains name)

end ImportContext

/-- `Parser::build_import_context` (`src/Token/parser.rs` lines
84-104): start from `new` plus the implicit `core` import, then insert
each declaration into the matching set. -/
def buildImportContext (importDecls : List ImportDecl) : ImportContext :=
  let context := ImportContext.new.add_core_imports
  importDecls.foldl
    (fun context imp =>
      match imp with
      | .libraryImport name =>
          { context with library_imports :=
              if context.library_imports.contains name
              then context.library_imports
              else context.library_imports ++ [name] }
      | .fileImport name from_ =>
          { context with symbol_imports :=
              context.symbol_imports ++ [(name, from_)] }
      | .wildcardImport from_ =>
          { context with library_imports :=
              if context.library_imports.contains from_
              then context.library_imports
              else context.library_imports ++ [from_] })
    context

/-- `UndefinedFunction` (name, call location, argument count) as pushed
by `stmt_calls`/`expr_calls` in `src/Token/parser.rs`. -/
structure UndefinedFunction where
  name : String
  call_location : SourceSpan
  args_count : Nat
  deriving DecidableEq, Repr

/-- `UndefinedFunctions { library_functions }` returned by
`find_undefined_functions` (`src/Token/parser.rs` line 2744). -/
structure UndefinedFunctions where
  library_functions : List UndefinedFunction
  deriving DecidableEq, Repr

mutual

/-- `Parser::expr_calls` (`src/Token/parser.rs` lines 2819-2869). -/
def exprCalls (e : Expr) (defined : List String)
    (undefined : List UndefinedFunction) (ictx : ImportContext) :
    List UndefinedFunction :=
  match e with
  | .call name args =>
      if ictx.is_library_function name then
        undefined
      else
        let undefined :=
          if ¬ defined.contains name ∧
             ¬ undefined.any (fun u => u.name = name) then
            undefined ++ [{ name := name
                          , call_location := ⟨0, 0⟩
                          , args_count := args.length }]
          else undefined
        exprCallsList args defined undefined ictx
  | .moduleCall module _func args =>
      if ictx.is_imported_symbol module then
        undefined
      else
        exprCallsList args defined undefined ictx
  | .binOp _ left right =>
      let undefined := exprCalls left defined undefined ictx
      exprCalls right defined undefined ictx
  | .unOp _ inner => exprCalls inner defined undefined ictx
  | .tuple exprs => exprCallsList exprs defined undefined ictx
  | .array exprs => exprCallsList exprs defined undefined ictx
  | _ => undefined

/-- The `for arg in args` loops of `stmt_calls`/`expr_calls`. -/
def exprCallsList (es : Exprs) (defined : List String)
    (undefined : List UndefinedFunction) (ictx : ImportContext) :
    List UndefinedFunction :=
  match es with
  | .nil => undefined
  | .cons e rest =>
    let undefined := exprCalls e defined undefined ictx
    exprCallsList rest defined undefined ictx

end

mutual

/-- `Parser::stmt_calls` (`src/Token/parser.rs` lines 2747-2817): the
`for stmt in stmts` loop, threading the `&mut Vec` accumulator of
undefined calls through the statement list; the loop body is the
mutual `stmtCall`. -/
def stmtCalls (stmts : Stmts) (defined : List String)
    (undefined : List UndefinedFunction) (ictx : ImportContext) :
    List UndefinedFunction :=
  match stmts with
  | .nil => undefined
  | .cons stmt rest =>
    stmtCalls rest defined (stmtCall stmt defined undefined ictx) ictx

/-- The body of the `for stmt in stmts` loop of `Parser::stmt_calls`:
the `match stmt` dispatch of `src/Token/parser.rs` lines 2755-2815. -/
def stmtCall (stmt : Stmt) (defined : List String)
    (undefined : List UndefinedFunction) (ictx : ImportContext) :
    List UndefinedFunction :=
  match stmt with
  | .call name args =>
      if ictx.is_library_function name then
        undefined
      else
        let undefined :=
          if ¬ defined.contains name ∧
             ¬ undefined.any (fun u => u.name = name) then
            undefined ++ [{ name := name
                          , call_location := ⟨0, 0⟩
                          , args_count := args.length }]
          else undefined
        exprCallsList args defined undefined ictx
  | .moduleCall module _func args =>
      if ictx.is_imported_symbol module then
        undefined
      else
        exprCallsList args defined undefined ictx
  | .ifS cond thenBody elseBody =>
      let undefined := exprCalls cond defined undefined ictx
      let undefined := stmtCalls thenBody defined undefined ictx
      match elseBody with
      | some elseStmts => stmtCalls elseStmts defined undefined ictx
      | none => undefined
  | .whileS cond body =>
      let undefined := exprCalls cond defined undefined ictx
      stmtCalls body defined undefined ictx
  | .matchS scrutinee cases default =>
      let undefined := exprCalls scrutinee defined undefined ictx
      let undefined := matchCasesCalls cases defined undefined ictx
      match default with
      | some defaultBody => stmtCalls defaultBody defined undefined ictx
      | none => undefined
  | .scope body => stmtCalls body defined undefined ictx
  | .unsafeS body => stmtCalls body defined undefined ictx
  | .returnS (some e) => exprCalls e defined undefined ictx
  | .assign _ e => exprCalls e defined undefined ictx
  | .compoundAssign _ _ e => exprCalls e defined undefined ictx
  | _ => undefined

/-- The `for case in cases` loop of the `Stmt::Match` arm of
`stmt_calls` (`src/Token/parser.rs` lines 2800-2803). -/
def matchCasesCalls (cases : MatchCases) (defined : List String)
    (undefined : List UndefinedFunction) (ictx : ImportContext) :
    List UndefinedFunction :=
  match cases with
  | .nil => undefined
  | .cons (.mk value body) rest =>
    let undefined := exprCalls value defined undefined ictx
    let undefined := stmtCalls body defined undefined ictx
    matchCasesCalls rest defined undefined ictx

end

/-- The `defined_functions` set of `Parser::find_undefined_functions`
(`src/Token/parser.rs` lines 2714-2737): user function names plus the
names of all extern-declared functions (the `HashSet` is modelled as a
list with membership lookup). -/
def definedFunctionNames (functions : List Function)
    (externs : List ExternDecl) : List String :=
  functions.map Function.name ++
    externs.foldl
      (fun acc ext =>
        match ext with
        | .single func => acc ++ [func.name]
        | .singleWithBody func => acc ++ [func.name]
        | .block fns => acc ++ fns.map ExternFunction.name)
      []

/-- `Parser::find_undefined_functions` (`src/Token/parser.rs` lines
2708-2745): collect the defined names from user functions and extern
declarations, then scan every function body. -/
def findUndefinedFunctions (functions : List Function)
    (externs : List ExternDecl) (ictx : ImportContext) :
    UndefinedFunctions :=
  let libraryFunctions :=
    functions.foldl
      (fun acc func =>
        stmtCalls func.body (definedFunctionNames functions externs) acc ictx)
      []
  { library_functions := libraryFunctions }

mutual

/-- Worded from the amended C2 claim, to be compared with `exprCalls`:
the `Call` targets an expression contributes to the undefined-function
analysis, before the defined-set filter.  At a `Call` whose target is
a library import the call and its arguments are skipped entirely;
otherwise the target is collected and the arguments are scanned.  At a
`ModuleCall` the target is never collected: the call and its arguments
are skipped entirely when the module name is an imported symbol, and
otherwise only the arguments are scanned.  `BinOp`/`UnOp`/`Tuple`/
`Array` subexpressions are scanned; no other expression form is. -/
def specExprCallTargets (e : Expr) (ictx : ImportContext) : List String :=
  match e with
  | .call name args =>
      if ictx.is_library_function name then []
      else name :: specExprsCallTargets args ictx
  | .moduleCall module _func args =>
      if ictx.is_imported_symbol module then []
      else specExprsCallTargets args ictx
  | .binOp _ left right =>
      specExprCallTargets left ictx ++ specExprCallTargets right ictx
  | .unOp _ inner => specExprCallTargets inner ictx
  | .tuple exprs => specExprsCallTargets exprs ictx
  | .array exprs => specExprsCallTargets exprs ictx
  | _ => []

/-- Worded from the amended C2 claim: the targets contributed by an
argument list, in order. -/
def specExprsCallTargets (es : Exprs) (ictx : ImportContext) : List String :=
  match es with
  | .nil => []
  | .cons e rest =>
      specExprCallTargets e ictx ++ specExprsCallTargets rest ictx

end

mutual

/-- Worded from the amended C2 claim, to be compared with `stmtCalls`:
the `Call` targets a statement sequence contributes, in order. -/
def specStmtsCallTargets (ss : Stmts) (ictx : ImportContext) : List String :=
  match ss with
  | .nil => []
  | .cons s rest =>
      specStmtCallTargets s ictx ++ specStmtsCallTargets rest ictx

/-- Worded from the amended C2 claim: the `Call` targets a single
statement contributes.  A statement-level `Call`/`ModuleCall` behaves
as in `specExprCallTargets`; the traversal descends into `If`
conditions and branches, `While` conditions and bodies, `Match`
scrutinees, case values, case bodies and default bodies, `Scope` and
`Unsafe` bodies, `Return` values and the right-hand sides of `Assign`
and `CompoundAssign`; every other statement form (in particular `For`
bodies and typed-declaration initializers) contributes nothing. -/
def specStmtCallTargets (s : Stmt) (ictx : ImportContext) : List String :=
  match s with
  | .call name args =>
      if ictx.is_library_function name then []
      else name :: specExprsCallTargets args ictx
  | .moduleCall module _func args =>
      if ictx.is_imported_symbol module then []
      else specExprsCallTargets args ictx
  | .ifS cond thenBody elseBody =>
      specExprCallTargets cond ictx ++ specStmtsCallTargets thenBody ictx ++
        (match elseBody with
         | some elseStmts => specStmtsCallTargets elseStmts ictx
         | none => [])
  | .whileS cond body =>
      specExprCallTargets cond ictx ++ specStmtsCallTargets body ictx
  | .matchS scrutinee cases default =>
      specExprCallTargets scrutinee ictx ++ specCasesCallTargets cases ictx ++
        (match default with
         | some defaultBody => specStmtsCallTargets defaultBody ictx
         | none => [])
  | .scope body => specStmtsCallTargets body ictx
  | .unsafeS body => specStmtsCallTargets body ictx
  | .returnS (some e) => specExprCallTargets e ictx
  | .assign _ e => specExprCallTargets e ictx
  | .compoundAssign _ _ e => specExprCallTargets e ictx
  | _ => []

/-- Worded from the amended C2 claim: the targets contributed by match
cases (case value, then case body), in order. -/
def specCasesCallTargets (cases : MatchCases) (ictx : ImportContext) : List String :=
  match cases with
  | .nil => []
  | .cons (.mk value body) rest =>
      specExprCallTargets value ictx ++ specStmtsCallTargets body ictx ++
        specCasesCallTargets rest ictx

end

/-- `Parser::is_type_token` (`src/Token/parser.rs` lines 956-964). -/
def isTypeToken (token : Token) : Bool :=
  match token with
  | .typeIdentifier _ | .Bool | .Void | .Any
  | .Str | .Ampersand | .BitwiseAnd | .TripleDot
  | .Tilde | .Mut | .LeftParen | .LeftBracket
  | .identifier _ | .Option | .Result | .Selfish
  | .Trait | .Caret | .StdStr => true
  | _ => false

/-- The `Token::Let` arm of `Parser::parse_stmt` (`src/Token/parser.rs`
lines 1112-1145).  `kType` and `kExpr` stand for `Parser::parse_type`
and `Parser::parse_expr` (defined elsewhere in `parser.rs`); the arm
executes the Rust `panic!` macro, modelled as the `Except.error`
outcome, when the token after the `let` keyword is not an identifier
(line 1118). -/
def parseStmtLetBranch (kType : Parser → VType × Parser)
    (kExpr : Parser → Expr × Parser) (p : Parser) :
    Except String (Stmt × Parser) :=
  let p := p.advance
  match p.current with
  | .identifier name =>
      let p := p.advance
      let (isMutable, p) :=
        if p.current = Token.Mut then (true, p.advance) else (false, p)
      let (ty, p) :=
        if p.current = Token.Colon then
          kType p.advance
        else (VType.auto, p)
      let p := p.expect Token.Equals [Token.Semicolon]
      let (value, p) := kExpr p
      Except.ok (Stmt.typedDeclaration name ty value isMutable, p)
  | _ => Except.error "Expected identifier after 'let'"

/-- The `Token::Pub` arm of `Parser::parse_stmt` (`src/Token/parser.rs`
lines 1492-1501).  The continuations stand for `parse_module`,
`parse_function_with_visibility`, `parse_struct` and `parse_enum`; any
current token other than `mod`, `func`, `struct` or `enum` executes the
Rust `panic!` macro of line 1499, modelled as the `Except.error`
outcome. -/
def parseStmtPubBranch (kModule : Bool → Parser → Stmt × Parser)
    (kFunc : Parser → Function × Parser)
    (kStruct : Parser → String × Parser)
    (kEnum : Parser → String × Parser) (p : Parser) :
    Except String (Stmt × Parser) :=
  let p := p.advance
  match p.current with
  | .Mod => Except.ok (kModule true p)
  | .Func =>
      let (f, p) := kFunc p
      Except.ok (Stmt.function f, p)
  | .Struct =>
      let (s, p) := kStruct p
      Except.ok (Stmt.structDefS s, p)
  | .Enum =>
      let (e, p) := kEnum p
      Except.ok (Stmt.enumDefS e, p)
  | _ => Except.error "Expected Item after Pub"

/-- The dispatch of `Parser::parse_stmt` (`src/Token/parser.rs` line
1110) restricted to its `Token::Let` and `Token::Pub` arms; every other
arm of the match is abstracted by the `kOther` continuation. -/
def parseStmtEntry (kType : Parser → VType × Parser)
    (kExpr : Parser → Expr × Parser)
    (kModule : Bool → Parser → Stmt × Parser)
    (kFunc : Parser → Function × Parser)
    (kStruct : Parser → String × Parser)
    (kEnum : Parser → String × Parser)
    (kOther : Parser → Except String (Stmt × Parser)) (p : Parser) :
    Except String (Stmt × Parser) :=
  match p.current with
  | .Let => parseStmtLetBranch kType kExpr p
  | .Pub => parseStmtPubBranch kModule kFunc kStruct kEnum p
  | _ => kOther p

/-- The return-type selection of `parse_function_with_visibility`
(`src/Token/parser.rs` lines 1801-1815): on `->` or `:` advance and
parse a type when a type token follows (otherwise `Void`); with no
arrow or colon, default to `Void` except top-level `main`, which
defaults to `Int32`.  `kType` stands for `Parser::parse_type`. -/
def parseFunctionReturnType (kType : Parser → VType × Parser)
    (p : Parser) (name : String) (isModule : Bool) : VType × Parser :=
  if p.current = Token.Arrow ∨ p.current = Token.Colon then
    let p := p.advance
    if isTypeToken p.current then
      kType p
    else
      (VType.void, p)
  else if name = "main" ∧ ¬ isModule then
    (VType.i32, p)
  else
    (VType.void, p)

/-- `SourceLocation` carried by code-generator diagnostics; its fields
are threaded through unchanged by every embedded function. -/
structure SourceLocation where
  line : Nat
  col : Nat
  deriving DecidableEq, Repr

/-- `ErrorContext` (usage in `src/Gen/build/unknow.rs`): primary span,
secondary spans, help text and suggestions. -/
structure ErrorContext where
  primary_location : SourceLocation
  secondary_locations : List SourceLocation
  help_message : Option String
  suggestions : List String
  deriving DecidableEq, Repr

/-- A structured code-generator diagnostic: stable kind string, message,
context and severity (spec section 4.6). -/
structure Diag where
  kind : String
  message : String
  context : ErrorContext
  severity : DiagnosticSeverity
  deriving DecidableEq, Repr

/-- Modelled from the spec: the diagnostics sink of `Gen/API/error.rs`
(not under `src/`).  Diagnostics are plain records appended to a vector
(spec section 9, Diagnostics as values). -/
structure Diagnostics where
  entries : List Diag
  deriving DecidableEq, Repr

namespace Diagnostics

/-- Modelled from the spec: `Diagnostics::error` appends an
error-severity record. -/
def error (d : Diagnostics) (kind message : String) (ctx : ErrorContext) :
    Diagnostics :=
  { entries := d.entries ++ [{ kind := kind, message := message
                             , context := ctx
                             , severity := DiagnosticSeverity.error }] }

/-- Modelled from the spec: `Diagnostics::warning` appends a
warning-severity record. -/
def warning (d : Diagnostics) (kind message : String) (ctx : ErrorContext) :
    Diagnostics :=
  { entries := d.entries ++ [{ kind := kind, message := message
                             , context := ctx
                             , severity := DiagnosticSeverity.warning }] }

/-- Modelled from the spec: `Diagnostics::has_errors` holds exactly when
an error-severity diagnostic has been collected (spec section 4.6). -/
def has_errors (d : Diagnostics) : Bool :=
  d.entries.any (fun e => e.severity = DiagnosticSeverity.error)

end Diagnostics

/-- The `IR` buffers of the code generator: forward declarations and
function bodies (usage in `src/Gen/build/helper/functions.rs` and
`src/Gen/build/library/module.rs`). -/
structure IR where
  forward_decls : String
  functions : String
  deriving DecidableEq, Repr

/-- Modelled from the spec: `IR::finalize` (in `Gen/codegen.rs`, not
under `src/`) concatenates the emitted sections in the fixed order of
spec section 5: forward declarations before function bodies. -/
def IR.finalize (ir : IR) : String :=
  ir.forward_decls ++ ir.functions

/-- `StructInfo { fields }` with `(name, type, public?)` triples (spec
section 3.4; usage in `src/Gen/build/unknow.rs` lines 175-186). -/
structure StructInfo where
  fields : List (String × VType × Bool)

/-- `ExternInfo { params, return_type }` (spec section 3.4; usage in
`src/Gen/build/unknow.rs` lines 272-273). -/
structure ExternInfo where
  params : List (String × VType)
  return_type : VType

/-- The code-generator state: the symbol tables of spec section 3.4 and
the fields used by the embedded functions.  Rust `HashMap`s are
modelled as association lists with keyed lookup. -/
structure Codegen where
  vars : List (String × String × VType)
  user_functions : List (String × (List (String × VType) × VType))
  extern_functions : List (String × ExternInfo)
  module_functions : List ((String × String) × (List (String × VType) × VType × Bool))
  structs : List (String × StructInfo)
  linked_libraries : List String
  module_init_functions : List String
  diagnostics : Diagnostics
  ir : IR
  var_counter : Nat

namespace Codegen

/-- Modelled from the spec: `Codegen::fresh_var` (in `Gen/codegen.rs`,
not under `src/`): fresh variables come from a monotonically increasing
counter (spec section 4.4), named `t0`, `t1`, ... as in the spec's
scenarios S1 and S4. -/
def freshVar (cg : Codegen) : String × Codegen :=
  ("t" ++ toString cg.var_counter, { cg with var_counter := cg.var_counter + 1 })

/-- Lookup in the `vars` table (`self.vars.get(name)`). -/
def lookupVar (cg : Codegen) (name : String) : Option (String × VType) :=
  cg.vars.lookup name

end Codegen

/-- The `String::contains` substring test used by the `ensure_*`
emitters (`self.ir.functions.contains("vix_push")`). -/
def strContains (hay pat : String) : Bool :=
  decide (pat.data <:+: hay.data)

/-- The C helper text appended by `ensure_unified_push`
(`src/Gen/build/helper/functions.rs` lines 9-47), braces escaped. -/
def pushHelperText : String :=
  "\n#define vix_push(arr, elem) _Generic((arr), \\\n    Slice_int8: vix_push_impl(arr, &(elem), sizeof(int8_t)), \\\n    Slice_int16: vix_push_impl(arr, &(elem), sizeof(int16_t)), \\\n    Slice_int32: vix_push_impl(arr, &(elem), sizeof(int32_t)), \\\n    Slice_int64: vix_push_impl(arr, &(elem), sizeof(int64_t)), \\\n    Slice_uint8: vix_push_impl(arr, &(elem), sizeof(uint8_t)), \\\n    Slice_uint16: vix_push_impl(arr, &(elem), sizeof(uint16_t)), \\\n    Slice_uint32: vix_push_impl(arr, &(elem), sizeof(uint32_t)), \\\n    Slice_uint64: vix_push_impl(arr, &(elem), sizeof(uint64_t)), \\\n    Slice_float: vix_push_impl(arr, &(elem), sizeof(float)), \\\n    Slice_double: vix_push_impl(arr, &(elem), sizeof(double)), \\\n    Slice_char: vix_push_impl(arr, &(elem), sizeof(char)), \\\n    default: vix_push_impl(arr, &(elem), sizeof(elem)) \\\n)\n\nstatic inline void* vix_push_impl(void* arr_ptr, const void* elem_ptr, size_t elem_size) \x7b\n    typedef struct \x7b\n        void* ptr;\n        size_t len;\n    \x7d GenericSlice;\n\n    GenericSlice* arr = (GenericSlice*)arr_ptr;\n    size_t new_len = arr->len + 1;\n\n    void* new_ptr = vix_malloc(new_len * elem_size);\n\n    if (arr->len > 0) \x7b\n        memcpy(new_ptr, arr->ptr, arr->len * elem_size);\n    \x7d\n\n    memcpy((char*)new_ptr + (arr->len * elem_size), elem_ptr, elem_size);\n\n    arr->ptr = new_ptr;\n    arr->len = new_len;\n    \n    return arr_ptr;\n\x7d\n"

/-- The C helper text appended by `ensure_unified_extend`
(`src/Gen/build/helper/functions.rs` lines 57-97), braces escaped. -/
def extendHelperText : String :=
  "\n#define vix_extend(dest, src) _Generic((dest), \\\n    Slice_int8: vix_extend_impl(&(dest), &(src), sizeof(int8_t)), \\\n    Slice_int16: vix_extend_impl(&(dest), &(src), sizeof(int16_t)), \\\n    Slice_int32: vix_extend_impl(&(dest), &(src), sizeof(int32_t)), \\\n    Slice_int64: vix_extend_impl(&(dest), &(src), sizeof(int64_t)), \\\n    Slice_uint8: vix_extend_impl(&(dest), &(src), sizeof(uint8_t)), \\\n    Slice_uint16: vix_extend_impl(&(dest), &(src), sizeof(uint16_t)), \\\n    Slice_uint32: vix_extend_impl(&(dest), &(src), sizeof(uint32_t)), \\\n    Slice_uint64: vix_extend_impl(&(dest), &(src), sizeof(uint64_t)), \\\n    Slice_float: vix_extend_impl(&(dest), &(src), sizeof(float)), \\\n    Slice_double: vix_extend_impl(&(dest), &(src), sizeof(double)), \\\n    Slice_char: vix_extend_impl(&(dest), &(src), sizeof(char)), \\\n    default: vix_extend_impl(&(dest), &(src), sizeof(*(dest).ptr)) \\\n)\n\nstatic inline void vix_extend_impl(void* dest_ptr, const void* src_ptr, size_t elem_size) \x7b\n    typedef struct \x7b\n        void* ptr;\n        size_t len;\n    \x7d GenericSlice;\n    \n    GenericSlice* dest = (GenericSlice*)dest_ptr;\n    const GenericSlice* src = (const GenericSlice*)src_ptr;\n\n    if (src->len == 0) return;\n\n    size_t new_len = dest->len + src->len;\n\n    void* new_ptr = vix_malloc(new_len * elem_size);\n\n    if (dest->len > 0) \x7b\n        memcpy(new_ptr, dest->ptr, dest->len * elem_size);\n    \x7d\n\n    memcpy((char*)new_ptr + (dest->len * elem_size), src->ptr, src->len * elem_size);\n\n    dest->ptr = new_ptr;\n    dest->len = new_len;\n\x7d\n"

/-- The C helper text appended by `ensure_zero_alloc_string_ops`
(`src/Gen/build/helper/functions.rs` lines 107-188), braces escaped. -/
def zeroAllocHelperText : String :=
  "\nstatic Slice_char vix_str_concat_view(Slice_char s1, Slice_char s2) \x7b\n    static __thread char buffer[8192];\n    static __thread size_t offset = 0;\n    \n    size_t total = s1.len + s2.len;\n\n    if (offset + total >= sizeof(buffer)) \x7b\n        offset = 0;\n    \x7d\n\n    memcpy(buffer + offset, s1.ptr, s1.len);\n    memcpy(buffer + offset + s1.len, s2.ptr, s2.len);\n\n    Slice_char result;\n    result.ptr = buffer + offset;\n    result.len = total;\n\n    offset += total;\n\n    return result;\n\x7d\n\nstatic inline void vix_str_append_inplace(Slice_char* dest, Slice_char src) \x7b\n\n    static __thread char extend_buf[8192];\n    static __thread size_t extend_offset = 0;\n    \n    size_t total = dest->len + src.len;\n    \n    if (extend_offset + total >= sizeof(extend_buf)) \x7b\n        extend_offset = 0;\n    \x7d\n\n    memcpy(extend_buf + extend_offset, dest->ptr, dest->len);\n    memcpy(extend_buf + extend_offset + dest->len, src.ptr, src.len);\n    \n    dest->ptr = extend_buf + extend_offset;\n    dest->len = total;\n    \n    extend_offset += total;\n\x7d\n\ntypedef struct \x7b\n    char* base;\n    size_t offset;\n    size_t capacity;\n\x7d Arena;\n\nstatic Arena global_arena = \x7b0\x7d;\n\nstatic inline void vix_arena_init(size_t capacity) \x7b\n    if (!global_arena.base) \x7b\n        global_arena.base = (char*)vix_malloc(capacity);\n        global_arena.capacity = capacity;\n        global_arena.offset = 0;\n    \x7d\n\x7d\n\nstatic inline char* vix_arena_alloc(size_t size) \x7b\n    if (global_arena.offset + size > global_arena.capacity) \x7b\n        global_arena.offset = 0;\n    \x7d\n    \n    char* ptr = global_arena.base + global_arena.offset;\n    global_arena.offset += size;\n    return ptr;\n\x7d\n\nstatic Slice_char vix_str_concat_arena(Slice_char s1, Slice_char s2) \x7b\n    size_t total = s1.len + s2.len;\n    char* ptr = vix_arena_alloc(total);\n    \n    memcpy(ptr, s1.ptr, s1.len);\n    memcpy(ptr + s1.len, s2.ptr, s2.len);\n    \n    Slice_char result;\n    result.ptr = ptr;\n    result.len = total;\n    return result;\n\x7d\n"

/-- `Codegen::ensure_unified_push` (`src/Gen/build/helper/functions.rs`
lines 4-50): append the push helper unless the buffer already contains
the marker `vix_push`. -/
def ensureUnifiedPush (cg : Codegen) : Codegen :=
  if strContains cg.ir.functions "vix_push" then cg
  else { cg with ir := { cg.ir with functions := cg.ir.functions ++ pushHelperText } }

/-- `Codegen::ensure_unified_extend` (`src/Gen/build/helper/functions.rs`
lines 52-100): append the extend helper unless the buffer already
contains the marker `vix_extend`. -/
def ensureUnifiedExtend (cg : Codegen) : Codegen :=
  if strContains cg.ir.functions "vix_extend" then cg
  else { cg with ir := { cg.ir with functions := cg.ir.functions ++ extendHelperText } }

/-- `Codegen::ensure_zero_alloc_string_ops`
(`src/Gen/build/helper/functions.rs` lines 102-191): append the string
helpers unless the buffer already contains the marker
`vix_str_concat_view`. -/
def ensureZeroAllocStringOps (cg : Codegen) : Codegen :=
  if strContains cg.ir.functions "vix_str_concat_view" then cg
  else { cg with ir := { cg.ir with functions := cg.ir.functions ++ zeroAllocHelperText } }

/-- `Codegen::codegen_push_unified` (`src/Gen/build/helper/functions.rs`
lines 193-196). -/
def codegenPushUnified (cg : Codegen) (arr elem : String) (body : String) :
    Codegen × String :=
  let cg := ensureUnifiedPush cg
  (cg, body ++ "vix_push(" ++ arr ++ ", " ++ elem ++ ");\n")

/-- `Codegen::codegen_extend_unified`
(`src/Gen/build/helper/functions.rs` lines 198-201). -/
def codegenExtendUnified (cg : Codegen) (dest src : String) (body : String) :
    Codegen × String :=
  let cg := ensureUnifiedExtend cg
  (cg, body ++ "vix_extend(" ++ dest ++ ", " ++ src ++ ");\n")

/-- `Codegen::codegen_str_append_zero_alloc`
(`src/Gen/build/helper/functions.rs` lines 213-216). -/
def codegenStrAppendZeroAlloc (cg : Codegen) (dest src : String)
    (body : String) : Codegen × String :=
  let cg := ensureZeroAllocStringOps cg
  (cg, body ++ "vix_str_append_inplace(&" ++ dest ++ ", " ++ src ++ ");\n")

/-- Modelled from the spec: `Type::to_c_type` (the Type Registry of
spec section 4.3 lives in `Gen/type.rs`, not under `src/`).  Only the
renderings relevant to the embedded functions are modelled; the
registry's forward-declaration side effects are not consulted by any
embedded function. -/
def VType.toCType : VType → String
  | .int bits true => "int" ++ toString bits ++ "_t"
  | .int bits false => "uint" ++ toString bits ++ "_t"
  | .float 32 => "float"
  | .float _ => "double"
  | .bool => "bool"
  | .void => "void"
  | .char _ => "char"
  | .usize => "size_t"
  | .constStr => "const char*"
  | .str _ => "Slice_char"
  | .structTy name => name
  | .ptr inner => VType.toCType inner ++ "*"
  | .ref inner => VType.toCType inner ++ "*"
  | .mutRef inner => VType.toCType inner ++ "*"
  | _ => "void*"

/-- Outcome of a statement-level codegen function: the Rust
`Result<(), ()>` together with the mutated generator state and output
buffer. -/
inductive StmtGen where
  | ok (cg : Codegen) (body : String)
  | err (cg : Codegen) (body : String)

/-- The `matches!(t, Type::Str { .. })` test. -/
def VType.isStrPat : VType → Bool
  | .str _ => true
  | _ => false

/-- The `matches!(t, Type::StdStr)` test. -/
def VType.isStdStrPat : VType → Bool
  | .stdStr => true
  | _ => false

/-- The `matches!(t, Type::ConstStr)` test. -/
def VType.isConstStrPat : VType → Bool
  | .constStr => true
  | _ => false

/-- The `matches!(t, Type::Void)` test. -/
def VType.isVoidPat : VType → Bool
  | .void => true
  | _ => false

/-- `Codegen::codegen_compound_assign` (`src/Gen/build/unknow.rs` lines
51-156).  The evaluation of the right-hand side by `codegen_expr`
(defined in `Gen/codegen.rs`, not under `src/`) is abstracted: `valVar`
and `valTy` are its results, with any side statements already in
`body`.  The single literal-operator emission of source line 154 is
shared by every fall-through path. -/
def codegenCompoundAssign (cg : Codegen) (name op valVar : String)
    (valTy : VType) (body : String) (loc : SourceLocation) : StmtGen :=
  match cg.lookupVar name with
  | none =>
      let ctx : ErrorContext :=
        { primary_location := loc,
          secondary_locations := [],
          help_message := some ("Cannot perform compound assignment on undefined variable '" ++ name ++ "'."),
          suggestions := ["Declare '" ++ name ++ "' before using compound assignment"] }
      let diags := cg.diagnostics.error "UndefinedVariable"
        ("Variable '" ++ name ++ "' is not defined") ctx
      StmtGen.err { cg with diagnostics := diags } body
  | some (cName, varTy) =>
    let literal : StmtGen :=
      StmtGen.ok cg (body ++ cName ++ " " ++ op ++ " " ++ valVar ++ ";\n")
    if varTy.isVoidPat ∨ valTy.isVoidPat then
      let ctx : ErrorContext :=
        { primary_location := loc,
          secondary_locations := [],
          help_message := none,
          suggestions := [] }
      let diags := cg.diagnostics.error "VoidOperation"
        "Cannot perform compound assignment on void type" ctx
      StmtGen.err { cg with diagnostics := diags } body
    else if op = "+=" then
      match varTy, valTy with
      | .array arrElem _, .array valElem _ =>
          if VType.typesCompatible arrElem valElem then
            let (cg, body) := codegenExtendUnified cg cName valVar body
            StmtGen.ok cg body
          else if (arrElem.isStrPat ∧ valElem.isStdStrPat) ∨
                  (arrElem.isStdStrPat ∧ (valElem.isStrPat ∨ valElem.isConstStrPat)) then
            let (cg, body) := codegenExtendUnified cg cName valVar body
            StmtGen.ok cg body
          else
            let ctx : ErrorContext :=
              { primary_location := loc,
                secondary_locations := [],
                help_message := some "Array elements must have compatible types",
                suggestions := ["Convert elements to matching type"] }
            let diags := cg.diagnostics.error "TypeMismatch"
              "Cannot append array with incompatible element type" ctx
            StmtGen.err { cg with diagnostics := diags } body
      | .array arrElem _, elemTy =>
          if VType.typesCompatible arrElem elemTy then
            let (cg, body) := codegenPushUnified cg cName valVar body
            StmtGen.ok cg body
          else if arrElem.isStrPat ∧ elemTy.isStdStrPat then
            let (cg, body) := codegenPushUnified cg cName valVar body
            StmtGen.ok cg body
          else
            literal
      | .str _, .str _ | .str _, .constStr =>
          let (cg, body) := codegenStrAppendZeroAlloc cg cName valVar body
          StmtGen.ok cg body
      | .str _, .stdStr =>
          let (cg, body) := codegenStrAppendZeroAlloc cg cName valVar body
          StmtGen.ok cg body
      | .stdStr, .str _ | .stdStr, .constStr | .stdStr, .stdStr =>
          let (cg, body) := codegenStrAppendZeroAlloc cg cName valVar body
          StmtGen.ok cg body
      | _, _ => literal
    else
      literal

/-- The six lowering outcomes amended claim C3 distinguishes for a
compound assignment. -/
inductive CAAction where
  | extendA
  | pushA
  | strAppendA
  | literalA
  | voidErrorA
  | typeMismatchA
  deriving DecidableEq, Repr

/-- The compound-assignment lowering rule of amended claim C3, written
from the claim's words: void operands are rejected; only `+=` has
special forms; an array destination with an array value extends when
the element types are compatible (or are the listed Str/StdStr mixes)
and is a type mismatch otherwise; an array destination with a
compatible single element (or a Str-element array with a StdStr value)
pushes; a string-typed destination (Str or StdStr) with a string-typed
value (Str, ConstStr or StdStr) appends in place; every other form is
the literal C compound operator. -/
def compoundAssignAction (varTy valTy : VType) (op : String) : CAAction :=
  if varTy.isVoidPat ∨ valTy.isVoidPat then .voidErrorA
  else if op ≠ "+=" then .literalA
  else
    match varTy, valTy with
    | .array e1 _, .array e2 _ =>
        if VType.typesCompatible e1 e2 ∨ (e1.isStrPat ∧ e2.isStdStrPat) ∨
           (e1.isStdStrPat ∧ (e2.isStrPat ∨ e2.isConstStrPat)) then .extendA
        else .typeMismatchA
    | .array e1 _, elemTy =>
        if VType.typesCompatible e1 elemTy ∨ (e1.isStrPat ∧ elemTy.isStdStrPat)
        then .pushA
        else .literalA
    | v, w =>
        if (v.isStrPat ∨ v.isStdStrPat) ∧
           (w.isStrPat ∨ w.isStdStrPat ∨ w.isConstStrPat)
        then .strAppendA
        else .literalA

/-- A code-generator state with empty symbol tables and buffers. -/
def emptyCodegen : Codegen :=
  { vars := [], user_functions := [], extern_functions := []
  , module_functions := [], structs := [], linked_libraries := []
  , module_init_functions := [], diagnostics := { entries := [] }
  , ir := { forward_decls := "", functions := "" }, var_counter := 0 }

/-- A code-generator state whose only variable is `xs : i32[]` (an
unsized `Int32` slice). -/
def xsSliceCodegen : Codegen :=
  { emptyCodegen with
      vars := [("xs", ("xs", VType.array VType.i32 none))] }

/-- The generator state after recording the VoidOperation error of
`codegen_compound_assign` (`src/Gen/build/unknow.rs` lines 70-77). -/
def voidOpErrState (cg : Codegen) (loc : SourceLocation) : Codegen :=
  let ctx : ErrorContext :=
    { primary_location := loc,
      secondary_locations := [],
      help_message := none,
      suggestions := [] }
  let diags := cg.diagnostics.error "VoidOperation"
    "Cannot perform compound assignment on void type" ctx
  { cg with diagnostics := diags }

/-- The generator state after recording the TypeMismatch error of
`codegen_compound_assign` (`src/Gen/build/unknow.rs` lines 99-109). -/
def typeMismatchErrState (cg : Codegen) (loc : SourceLocation) : Codegen :=
  let ctx : ErrorContext :=
    { primary_location := loc,
      secondary_locations := [],
      help_message := some "Array elements must have compatible types",
      suggestions := ["Convert elements to matching type"] }
  let diags := cg.diagnostics.error "TypeMismatch"
    "Cannot append array with incompatible element type" ctx
  { cg with diagnostics := diags }

/-- The `needs_ptr` test of the call-site argument coercion
(`src/Gen/build/unknow.rs` lines 417-423 and 288-294): the declared
parameter type is `ConstStr` or a pointer to `const char`. -/
def needsPtr : VType → Bool
  | .constStr => true
  | .ptr inner =>
      match inner with
      | .constTy t =>
          match t with
          | .char _ => true
          | _ => false
      | _ => false
  | _ => false

/-- `Codegen::codegen_call_stmt` (`src/Gen/build/unknow.rs` lines
390-445).  `resolve_function_name` and `codegen_expr` are defined in
`Gen/codegen.rs`, not under `src/`: the resolved callee name and the
already-evaluated argument (variable, type) pairs are inputs, with any
side statements already in `body`. -/
def codegenCallStmt (cg : Codegen) (resolvedFunc : String)
    (args : List (String × VType)) (body : String) : Codegen × String :=
  let paramTypes : Option (List VType) :=
    match cg.extern_functions.lookup resolvedFunc with
    | some extInfo => some (extInfo.params.map (fun p => p.2))
    | none =>
      match cg.user_functions.lookup resolvedFunc with
      | some (params, _) => some (params.map (fun p => p.2))
      | none => none
  let argVars : List String :=
    args.enum.map (fun iArg =>
      let i := iArg.1
      let var := iArg.2.1
      let ty := iArg.2.2
      match paramTypes with
      | some params =>
        match params.get? i with
        | some paramTy =>
            if needsPtr paramTy ∧ ty.isStrPat then var ++ ".ptr" else var
        | none => var
      | none =>
        if ty.isStrPat then var ++ ".ptr" else var)
  let argsStr := String.intercalate ", " argVars
  (cg, body ++ resolvedFunc ++ "(" ++ argsStr ++ ");\n")

/-- `Codegen::codegen_module_call` (`src/Gen/build/library/module.rs`
lines 4-70).  `codegen_expr` is abstracted: `argVars` are its results
for the argument expressions, with side statements already in `body`. -/
def codegenModuleCall (cg : Codegen) (module func : String)
    (argVars : List String) (body : String) (loc : SourceLocation) :
    (Codegen × String) × (String × VType) :=
  let fullFuncName := module ++ "_" ++ func
  let (returnType, cg) :=
    match cg.user_functions.lookup fullFuncName with
    | some (_, retTy) => (retTy, cg)
    | none =>
      match cg.extern_functions.lookup fullFuncName with
      | some extInfo => (extInfo.return_type, cg)
      | none =>
        match cg.module_functions.lookup (module, func) with
        | some (_, retTy, _) => (retTy, cg)
        | none =>
            let ctx : ErrorContext :=
              { primary_location := loc,
                secondary_locations := [],
                help_message := some ("Make sure the function '" ++ func ++ "' is defined and exported in module '" ++ module ++ "'"),
                suggestions := ["Check if '" ++ func ++ "' is public in the module",
                                "Verify the module was imported correctly"] }
            let diags := cg.diagnostics.warning "UndefinedModuleFunction"
              ("Function '" ++ func ++ "' not found in module '" ++ module ++ "'") ctx
            (VType.void, { cg with diagnostics := diags })
  let (tmp, cg) := cg.freshVar
  let cType := returnType.toCType
  let argsStr := String.intercalate ", " argVars
  if returnType.isVoidPat then
    ((cg, body ++ fullFuncName ++ "(" ++ argsStr ++ ");\n"
            ++ "int32_t " ++ tmp ++ " = 0;\n"),
     (tmp, VType.void))
  else
    ((cg, body ++ cType ++ " " ++ tmp ++ " = "
            ++ fullFuncName ++ "(" ++ argsStr ++ ");\n"),
     (tmp, returnType))

/-- `Codegen::finalize` (`src/Gen/build/unknow.rs` lines 455-462): fail
exactly when an error-severity diagnostic has been collected, succeed
with the finalized IR text otherwise. -/
def Codegen.finalize (cg : Codegen) : Except Unit String :=
  if cg.diagnostics.has_errors then Except.error ()
  else Except.ok cg.ir.finalize

-- DEFS-END

/-- Position `i` of the token buffer holds a token the recovery loop of
`expect` skips over: present, not the expected token, not in the sync
set, and not `EOF`. -/
def nonStopAt (tokens : List Token) (expected : Token) (sync : List Token)
    (i : Nat) : Prop :=
  ∃ t, tokens.get? i = some t ∧ t ≠ expected ∧
    sync.contains t = false ∧ t ≠ Token.EOF

/-- Postcondition of the `expect` recovery loop started at state `q`
with `n` skips of budget left: the token and span buffers and the
diagnostics are untouched, the position advances by at most `n` and
never decreases, and the loop stopped for one of four reasons — it
consumed the expected token, it stopped unconsumed on a sync-set member
or an `EOF` token, it ran off the end of the buffer, or it exhausted
the skip budget — having skipped only skippable tokens on the way. -/
def expectLoopPost (q r : Parser) (expected : Token) (sync : List Token)
    (n : Nat) : Prop :=
  r.tokens = q.tokens ∧ r.spans = q.spans ∧ r.diags = q.diags ∧
  q.pos ≤ r.pos ∧ r.pos ≤ q.pos + n ∧
  ((q.pos < r.pos ∧ q.tokens.get? (r.pos - 1) = some expected ∧
      ∀ i, q.pos ≤ i → i < r.pos - 1 → nonStopAt q.tokens expected sync i) ∨
   ((∃ t, q.tokens.get? r.pos = some t ∧
        (sync.contains t = true ∨ t = Token.EOF)) ∧
      ∀ i, q.pos ≤ i → i < r.pos → nonStopAt q.tokens expected sync i) ∨
   (q.tokens.length ≤ r.pos ∧
      ∀ i, q.pos ≤ i → i < r.pos → nonStopAt q.tokens expected sync i) ∨
   (r.pos = q.pos + n ∧
      ∀ i, q.pos ≤ i → i < r.pos → nonStopAt q.tokens expected sync i))


/-! ## Theorems -/

/-- Commutativity of boolean equality tests, used for the primitive rows
of `types_compatible`. -/
theorem beqComm {α : Type} [BEq α] [LawfulBEq α] (a b : α) :
    (a == b) = (b == a) := by
  by_cases h : a = b
  · subst h; rfl
  · have h1 : (a == b) = false := beq_false_of_ne h
    have h2 : (b == a) = false := beq_false_of_ne (fun e => h e.symm)
    rw [h1, h2]

/-- Size-bounded symmetry of `types_compatible` and its tuple-field
helper, proved together by induction on the size bound. -/
theorem typesCompatible_symm_aux : ∀ n : Nat,
    (∀ t1 t2 : VType, sizeOf t1 + sizeOf t2 ≤ n →
      VType.typesCompatible t1 t2 = VType.typesCompatible t2 t1) ∧
    (∀ l1 l2 : List VType, sizeOf l1 + sizeOf l2 ≤ n →
      VType.typesCompatibleList l1 l2 = VType.typesCompatibleList l2 l1) := by
  intro n
  induction n with
  | zero =>
    constructor
    · intro t1 t2 h
      cases t1 <;> simp at h <;> omega
    · intro l1 l2 h
      cases l1 <;> simp at h <;> omega
  | succ n ih =>
    obtain ⟨ihT, ihL⟩ := ih
    constructor
    · intro t1 t2 h
      conv_lhs => rw [VType.typesCompatible.eq_def]
      conv_rhs => rw [VType.typesCompatible.eq_def]
      cases t1 <;> cases t2 <;>
        first
        | rfl
        | exact ihT _ _ (by first | omega | (simp at h ⊢; omega) | (simp at h; omega) | (simp; omega))
        | exact ihL _ _ (by first | omega | (simp at h ⊢; omega) | (simp at h; omega) | (simp; omega))
        | exact beqComm _ _
        | (dsimp only []; congr 1 <;>
            first
            | exact ihT _ _ (by first | omega | (simp at h ⊢; omega) | (simp at h; omega) | (simp; omega))
            | exact ihL _ _ (by first | omega | (simp at h ⊢; omega) | (simp at h; omega) | (simp; omega))
            | exact beqComm _ _)
    · intro l1 l2 h
      conv_lhs => rw [VType.typesCompatibleList.eq_def]
      conv_rhs => rw [VType.typesCompatibleList.eq_def]
      cases l1 <;> cases l2 <;>
        first
        | rfl
        | (dsimp only []; congr 1 <;>
            first
            | exact ihT _ _ (by first | omega | (simp at h ⊢; omega) | (simp at h; omega) | (simp; omega))
            | exact ihL _ _ (by first | omega | (simp at h ⊢; omega) | (simp at h; omega) | (simp; omega)))

/-- C10: the type-compatibility relation used by code generation is
symmetric: for all types t1 and t2,
types_compatible(t1, t2) = types_compatible(t2, t1). -/
theorem types_compatible_symm (t1 t2 : VType) :
    VType.typesCompatible t1 t2 = VType.typesCompatible t2 t1 :=
  (typesCompatible_symm_aux (sizeOf t1 + sizeOf t2)).1 t1 t2 (Nat.le_refl _)

/-- C7: `Codegen::finalize` succeeds with the emitted C text exactly
when no error-severity diagnostic has been collected, and fails exactly
when at least one error-severity diagnostic is present, regardless of
the rest of the generator state. -/
theorem finalize_iff_no_error (cg : Codegen) :
    (cg.finalize = Except.ok cg.ir.finalize ↔
      ¬ ∃ d ∈ cg.diagnostics.entries,
          d.severity = DiagnosticSeverity.error) ∧
    (cg.finalize = Except.error () ↔
      ∃ d ∈ cg.diagnostics.entries,
          d.severity = DiagnosticSeverity.error) := by
  have hiff : cg.diagnostics.has_errors = true ↔
      ∃ d ∈ cg.diagnostics.entries,
        d.severity = DiagnosticSeverity.error := by
    unfold Diagnostics.has_errors
    simp [List.any_eq_true]
  by_cases h : cg.diagnostics.has_errors
  · constructor
    · simp [Codegen.finalize, h, hiff.1 h]
    · simp [Codegen.finalize, h, hiff.1 h]
  · have hne : ¬ ∃ d ∈ cg.diagnostics.entries,
        d.severity = DiagnosticSeverity.error := by
      intro hc
      exact h (hiff.2 hc)
    constructor
    · simp [Codegen.finalize, h, hne]
    · simp [Codegen.finalize, h, hne]

/-- The `vix_push` marker occurs in the push helper text. -/
theorem pushMarker_infix :
    strContains pushHelperText "vix_push" = true := by decide

/-- The `vix_extend` marker occurs in the extend helper text. -/
theorem extendMarker_infix :
    strContains extendHelperText "vix_extend" = true := by decide

/-- The `vix_str_concat_view` marker occurs in the zero-alloc string
helper text. -/
theorem zeroAllocMarker_infix :
    strContains zeroAllocHelperText "vix_str_concat_view" = true := by decide

/-- Substring containment is preserved by appending on the left. -/
theorem strContains_append_right (s t pat : String)
    (h : strContains t pat = true) : strContains (s ++ t) pat = true := by
  unfold strContains at h ⊢
  have h' : pat.data <:+: t.data := of_decide_eq_true h
  obtain ⟨u, v, huv⟩ := h'
  apply decide_eq_true
  refine ⟨s.data ++ u, v, ?_⟩
  have hdata : (s ++ t).data = s.data ++ t.data := rfl
  rw [hdata, ← huv]
  simp

/-- Appending the push helper makes its marker present. -/
theorem ensureUnifiedPush_marker (cg : Codegen) :
    strContains (ensureUnifiedPush cg).ir.functions "vix_push" = true := by
  unfold ensureUnifiedPush
  by_cases h : strContains cg.ir.functions "vix_push"
  · simp [h]
  · simp only [h]
    simp only [Bool.false_eq_true, if_false]
    exact strContains_append_right _ _ _ pushMarker_infix

/-- Appending the extend helper makes its marker present. -/
theorem ensureUnifiedExtend_marker (cg : Codegen) :
    strContains (ensureUnifiedExtend cg).ir.functions "vix_extend" = true := by
  unfold ensureUnifiedExtend
  by_cases h : strContains cg.ir.functions "vix_extend"
  · simp [h]
  · simp only [h]
    simp only [Bool.false_eq_true, if_false]
    exact strContains_append_right _ _ _ extendMarker_infix

/-- Appending the zero-alloc string helpers makes their marker present. -/
theorem ensureZeroAlloc_marker (cg : Codegen) :
    strContains (ensureZeroAllocStringOps cg).ir.functions
      "vix_str_concat_view" = true := by
  unfold ensureZeroAllocStringOps
  by_cases h : strContains cg.ir.functions "vix_str_concat_view"
  · simp [h]
  · simp only [h]
    simp only [Bool.false_eq_true, if_false]
    exact strContains_append_right _ _ _ zeroAllocMarker_infix

/-- C9: each `ensure_*` runtime-prelude emitter is idempotent and,
keyed on its exported symbol name, appends its helper text at most
once: iterating any emitter any positive number of times equals one
application; a buffer without the marker gains the helper text exactly
once; a buffer with the marker is left untouched. -/
theorem ensure_helpers_emit_once :
    (∀ cg : Codegen,
      ensureUnifiedPush (ensureUnifiedPush cg) = ensureUnifiedPush cg) ∧
    (∀ cg : Codegen,
      ensureUnifiedExtend (ensureUnifiedExtend cg) = ensureUnifiedExtend cg) ∧
    (∀ cg : Codegen,
      ensureZeroAllocStringOps (ensureZeroAllocStringOps cg) =
        ensureZeroAllocStringOps cg) ∧
    (∀ (cg : Codegen) (n : Nat), 1 ≤ n →
      ensureUnifiedPush^[n] cg = ensureUnifiedPush cg) ∧
    (∀ cg : Codegen, strContains cg.ir.functions "vix_push" = false →
      (ensureUnifiedPush cg).ir.functions =
        cg.ir.functions ++ pushHelperText) ∧
    (∀ cg : Codegen, strContains cg.ir.functions "vix_push" = true →
      ensureUnifiedPush cg = cg) := by
  have hpush : ∀ cg : Codegen,
      ensureUnifiedPush (ensureUnifiedPush cg) = ensureUnifiedPush cg := by
    intro cg
    conv_lhs => rw [ensureUnifiedPush]
    simp [ensureUnifiedPush_marker cg]
  refine ⟨hpush, ?_, ?_, ?_, ?_, ?_⟩
  · intro cg
    conv_lhs => rw [ensureUnifiedExtend]
    simp [ensureUnifiedExtend_marker cg]
  · intro cg
    conv_lhs => rw [ensureZeroAllocStringOps]
    simp [ensureZeroAlloc_marker cg]
  · intro cg n hn
    induction n with
    | zero => omega
    | succ m ih =>
      cases Nat.eq_or_lt_of_le hn with
      | inl h1 =>
        have : m = 0 := by omega
        subst this
        simp
      | inr h1 =>
        have hm : 1 ≤ m := by omega
        rw [Function.iterate_succ_apply', ih hm, hpush]
  · intro cg h
    unfold ensureUnifiedPush
    simp [h]
  · intro cg h
    unfold ensureUnifiedPush
    simp [h]

/-- C1: evaluation of the embedded `parse_stmt` dispatch at the token
stream consisting of a single `let` keyword: for every instantiation of
the abstracted sub-parsers, the `Token::Let` arm reaches the
`panic!("Expected identifier after 'let'")` of `src/Token/parser.rs`
line 1118, so the parser does not return a `Program` plus diagnostics
on this input. -/
theorem parse_stmt_let_panics
    (kType : Parser → VType × Parser) (kExpr : Parser → Expr × Parser)
    (kModule : Bool → Parser → Stmt × Parser)
    (kFunc : Parser → Function × Parser)
    (kStruct kEnum : Parser → String × Parser)
    (kOther : Parser → Except String (Stmt × Parser)) :
    parseStmtEntry kType kExpr kModule kFunc kStruct kEnum kOther
      ⟨[Token.Let], [⟨0, 3⟩], 0, []⟩ =
      Except.error "Expected identifier after 'let'" := rfl

/-- C8 counterexample: for the token stream `: return` after the
parameter list of a top-level function named `main` — a declaration
that carries no explicit return type, since the colon is not followed
by a type token — the recorded return type is `Void`, not the `Int32`
the claim requires for `main`. -/
theorem return_type_default_counterexample :
    (parseFunctionReturnType (fun p => (VType.auto, p))
        ⟨[Token.Colon, Token.Return], [], 0, []⟩ "main" false).1 =
      VType.void ∧
    isTypeToken Token.Return = false ∧
    VType.void ≠ VType.i32 := by
  refine ⟨rfl, rfl, ?_⟩
  intro h
  simp [VType.i32] at h

/-- C8 (amended): with no `->` or `:` after the parameter list the
return type defaults to `Void`, except a top-level non-module `main`
which defaults to `Int32`; when `->` or `:` is present but not followed
by a type token, the recorded return type is `Void` even for `main`;
when it is followed by a type token, the type parser is consulted. -/
theorem return_type_default_amended (kType : Parser → VType × Parser)
    (p : Parser) (name : String) (isModule : Bool) :
    (p.current ≠ Token.Arrow → p.current ≠ Token.Colon →
      parseFunctionReturnType kType p name isModule =
        (if name = "main" ∧ isModule = false then VType.i32 else VType.void,
         p)) ∧
    ((p.current = Token.Arrow ∨ p.current = Token.Colon) →
      isTypeToken p.advance.current = false →
      parseFunctionReturnType kType p name isModule =
        (VType.void, p.advance)) ∧
    ((p.current = Token.Arrow ∨ p.current = Token.Colon) →
      isTypeToken p.advance.current = true →
      parseFunctionReturnType kType p name isModule = kType p.advance) := by
  refine ⟨?_, ?_, ?_⟩
  · intro h1 h2
    unfold parseFunctionReturnType
    rw [if_neg (by tauto)]
    by_cases hm : name = "main" ∧ ¬ (isModule = true)
    · rw [if_pos hm, if_pos]
      obtain ⟨hm1, hm2⟩ := hm
      exact ⟨hm1, by simpa using hm2⟩
    · rw [if_neg hm, if_neg]
      intro hc
      exact hm ⟨hc.1, by simp [hc.2]⟩
  · intro h1 h2
    unfold parseFunctionReturnType
    rw [if_pos h1]
    simp [h2]
  · intro h1 h2
    unfold parseFunctionReturnType
    rw [if_pos h1]
    simp [h2]

/-- Witness for the amended C8 at concrete inputs: a `main` with no
arrow or colon gets `Int32`, and a `main` whose colon is followed by
`return` gets `Void`. -/
theorem return_type_default_amended_witness :
    parseFunctionReturnType (fun p => (VType.auto, p))
      ⟨[Token.Return], [], 0, []⟩ "main" false =
      (VType.i32, ⟨[Token.Return], [], 0, []⟩) ∧
    parseFunctionReturnType (fun p => (VType.auto, p))
      ⟨[Token.Colon, Token.Return], [], 0, []⟩ "main" false =
      (VType.void, (⟨[Token.Colon, Token.Return], [], 0, []⟩ : Parser).advance) := by
  constructor
  · have h := (return_type_default_amended (fun p => (VType.auto, p))
      ⟨[Token.Return], [], 0, []⟩ "main" false).1
      (by decide) (by decide)
    rw [h]
    simp
  · exact (return_type_default_amended (fun p => (VType.auto, p))
      ⟨[Token.Colon, Token.Return], [], 0, []⟩ "main" false).2.1
      (by decide) (by decide)

/-- C4 counterexample: a call statement to a callee with no recorded
signature (neither extern nor user) and a `Str`-typed argument passes
`t0.ptr`, although the claim requires the argument to be passed as-is
when the declared parameter type is not `ConstStr` or `*const char`. -/
theorem call_coercion_counterexample :
    (codegenCallStmt
      { vars := [], user_functions := [], extern_functions := []
      , module_functions := [], structs := [], linked_libraries := []
      , module_init_functions := [], diagnostics := { entries := [] }
      , ir := { forward_decls := "", functions := "" }, var_counter := 0 }
      "mystery" [("t0", VType.str 8)] "").2 = "mystery(t0.ptr);\n" ∧
    ("mystery(t0.ptr);\n" : String) ≠ "mystery(t0);\n" := by
  constructor
  · rfl
  · decide

/-- C4 (amended): the generated call statement leaves the generator
state unchanged and lowers its arguments as follows: with no recorded
signature every `Str`-typed argument is passed as `arg.ptr`; with a
recorded signature (extern first, then user) an argument is passed as
`arg.ptr` exactly when its declared parameter type is `ConstStr` or
pointer-to-const-char and the argument is `Str`-typed, and as-is
otherwise (including arguments beyond the declared parameters). -/
theorem call_stmt_arg_lowering (cg : Codegen) (resolvedFunc : String)
    (args : List (String × VType)) (body : String) :
    (codegenCallStmt cg resolvedFunc args body).1 = cg ∧
    (cg.extern_functions.lookup resolvedFunc = none →
     cg.user_functions.lookup resolvedFunc = none →
     codegenCallStmt cg resolvedFunc args body =
       (cg, body ++ resolvedFunc ++ "(" ++ String.intercalate ", "
          (args.map (fun a => if a.2.isStrPat then a.1 ++ ".ptr" else a.1))
          ++ ");\n")) ∧
    (∀ e, cg.extern_functions.lookup resolvedFunc = some e →
     codegenCallStmt cg resolvedFunc args body =
       (cg, body ++ resolvedFunc ++ "(" ++ String.intercalate ", "
          (args.enum.map (fun ia =>
            match (e.params.map (fun p => p.2)).get? ia.1 with
            | some paramTy =>
                if needsPtr paramTy ∧ ia.2.2.isStrPat
                then ia.2.1 ++ ".ptr" else ia.2.1
            | none => ia.2.1)) ++ ");\n")) ∧
    (∀ ps rt, cg.extern_functions.lookup resolvedFunc = none →
     cg.user_functions.lookup resolvedFunc = some (ps, rt) →
     codegenCallStmt cg resolvedFunc args body =
       (cg, body ++ resolvedFunc ++ "(" ++ String.intercalate ", "
          (args.enum.map (fun ia =>
            match (ps.map (fun p => p.2)).get? ia.1 with
            | some paramTy =>
                if needsPtr paramTy ∧ ia.2.2.isStrPat
                then ia.2.1 ++ ".ptr" else ia.2.1
            | none => ia.2.1)) ++ ");\n")) := by
  refine ⟨rfl, ?_, ?_, ?_⟩
  · intro he hu
    have hmap : args.enum.map
        (fun (iArg : Nat × String × VType) =>
          if iArg.2.2.isStrPat = true then iArg.2.1 ++ ".ptr" else iArg.2.1) =
        args.map
          (fun (a : String × VType) =>
            if a.2.isStrPat = true then a.1 ++ ".ptr" else a.1) := by
      rw [show (fun (iArg : Nat × String × VType) =>
            if iArg.2.2.isStrPat = true then iArg.2.1 ++ ".ptr" else iArg.2.1) =
          ((fun (a : String × VType) =>
            if a.2.isStrPat = true then a.1 ++ ".ptr" else a.1) ∘ Prod.snd)
          from rfl]
      rw [← List.map_map, List.enum_map_snd]
    unfold codegenCallStmt
    rw [he, hu]
    dsimp only
    rw [hmap]
  · intro e he
    unfold codegenCallStmt
    rw [he]
  · intro ps rt he hu
    unfold codegenCallStmt
    rw [he, hu]

/-- Witness for the amended C4: at a generator with empty symbol
tables, a two-argument call with a `Str` argument and an `Int32`
argument lowers to `mystery(t0.ptr, n);`. -/
theorem call_stmt_arg_lowering_witness :
    codegenCallStmt
      { vars := [], user_functions := [], extern_functions := []
      , module_functions := [], structs := [], linked_libraries := []
      , module_init_functions := [], diagnostics := { entries := [] }
      , ir := { forward_decls := "", functions := "" }, var_counter := 0 }
      "mystery" [("t0", VType.str 8), ("n", VType.i32)] "" =
      ({ vars := [], user_functions := [], extern_functions := []
       , module_functions := [], structs := [], linked_libraries := []
       , module_init_functions := [], diagnostics := { entries := [] }
       , ir := { forward_decls := "", functions := "" }, var_counter := 0 },
       "" ++ "mystery" ++ "(" ++ String.intercalate ", "
         ([("t0", VType.str 8), ("n", VType.i32)].map
           (fun a => if a.2.isStrPat then a.1 ++ ".ptr" else a.1))
         ++ ");\n") :=
  (call_stmt_arg_lowering
    { vars := [], user_functions := [], extern_functions := []
    , module_functions := [], structs := [], linked_libraries := []
    , module_init_functions := [], diagnostics := { entries := [] }
    , ir := { forward_decls := "", functions := "" }, var_counter := 0 }
    "mystery" [("t0", VType.str 8), ("n", VType.i32)] "").2.1 rfl rfl

/-- The `matches!(t, Type::Void)` test succeeds only on `Void`. -/
theorem isVoidPat_eq {t : VType} (h : t.isVoidPat = true) : t = VType.void := by
  cases t <;> first | rfl | simp [VType.isVoidPat] at h

/-- C5: every module call is lowered through the mangled name
`Mod_func(args)`; the return type is resolved in the order user
functions, extern functions, module functions (with no diagnostic when
found); when no definition is found, a warning-severity
`UndefinedModuleFunction` diagnostic is recorded, the call is still
emitted, and the result is the placeholder `Void` with a fresh
`int32_t` dummy initialised to 0. -/
theorem module_call_lowering (cg : Codegen) (module func : String)
    (argVars : List String) (body : String) (loc : SourceLocation) :
    (∃ pre post,
      (codegenModuleCall cg module func argVars body loc).1.2 =
        body ++ pre ++ (module ++ "_" ++ func ++ "(" ++
          String.intercalate ", " argVars ++ ");\n") ++ post) ∧
    (∀ ps rt,
      cg.user_functions.lookup (module ++ "_" ++ func) = some (ps, rt) →
      (codegenModuleCall cg module func argVars body loc).2.2 = rt ∧
      ((codegenModuleCall cg module func argVars body loc).1.1).diagnostics
        = cg.diagnostics) ∧
    (∀ e,
      cg.user_functions.lookup (module ++ "_" ++ func) = none →
      cg.extern_functions.lookup (module ++ "_" ++ func) = some e →
      (codegenModuleCall cg module func argVars body loc).2.2 =
        e.return_type ∧
      ((codegenModuleCall cg module func argVars body loc).1.1).diagnostics
        = cg.diagnostics) ∧
    (∀ ps rt pub,
      cg.user_functions.lookup (module ++ "_" ++ func) = none →
      cg.extern_functions.lookup (module ++ "_" ++ func) = none →
      cg.module_functions.lookup (module, func) = some (ps, rt, pub) →
      (codegenModuleCall cg module func argVars body loc).2.2 = rt ∧
      ((codegenModuleCall cg module func argVars body loc).1.1).diagnostics
        = cg.diagnostics) ∧
    (cg.user_functions.lookup (module ++ "_" ++ func) = none →
     cg.extern_functions.lookup (module ++ "_" ++ func) = none →
     cg.module_functions.lookup (module, func) = none →
      (codegenModuleCall cg module func argVars body loc).2 =
        ("t" ++ toString cg.var_counter, VType.void) ∧
      (codegenModuleCall cg module func argVars body loc).1.2 =
        body ++ module ++ "_" ++ func ++ "(" ++
          String.intercalate ", " argVars ++ ");\n" ++
          ("int32_t " ++ ("t" ++ toString cg.var_counter) ++ " = 0;\n") ∧
      ∃ d,
        ((codegenModuleCall cg module func argVars body loc).1.1).diagnostics.entries
          = cg.diagnostics.entries ++ [d] ∧
        d.kind = "UndefinedModuleFunction" ∧
        d.severity = DiagnosticSeverity.warning) := by
  refine ⟨?_, ?_, ?_, ?_, ?_⟩
  · cases hu : cg.user_functions.lookup (module ++ "_" ++ func) with
    | some v =>
      obtain ⟨ps, rt⟩ := v
      simp only [String.append_assoc] at hu
      by_cases hv : rt.isVoidPat
      · refine ⟨"", "int32_t " ++ ("t" ++ toString cg.var_counter) ++ " = 0;\n", ?_⟩
        simp [codegenModuleCall, hu, hv, Codegen.freshVar, String.append_assoc]
        rfl
      · refine ⟨rt.toCType ++ " " ++ ("t" ++ toString cg.var_counter) ++ " = ", "", ?_⟩
        simp [codegenModuleCall, hu, hv, Codegen.freshVar, String.append_assoc]
    | none =>
      cases he : cg.extern_functions.lookup (module ++ "_" ++ func) with
      | some e =>
        simp only [String.append_assoc] at hu he
        by_cases hv : e.return_type.isVoidPat
        · refine ⟨"", "int32_t " ++ ("t" ++ toString cg.var_counter) ++ " = 0;\n", ?_⟩
          simp [codegenModuleCall, hu, he, hv, Codegen.freshVar, String.append_assoc]
          rfl
        · refine ⟨e.return_type.toCType ++ " " ++ ("t" ++ toString cg.var_counter) ++ " = ", "", ?_⟩
          simp [codegenModuleCall, hu, he, hv, Codegen.freshVar, String.append_assoc]
      | none =>
        cases hm : cg.module_functions.lookup (module, func) with
        | some v =>
          obtain ⟨ps, rt, pub⟩ := v
          simp only [String.append_assoc] at hu he
          by_cases hv : rt.isVoidPat
          · refine ⟨"", "int32_t " ++ ("t" ++ toString cg.var_counter) ++ " = 0;\n", ?_⟩
            simp [codegenModuleCall, hu, he, hm, hv, Codegen.freshVar, String.append_assoc]
            rfl
          · refine ⟨rt.toCType ++ " " ++ ("t" ++ toString cg.var_counter) ++ " = ", "", ?_⟩
            simp [codegenModuleCall, hu, he, hm, hv, Codegen.freshVar, String.append_assoc]
        | none =>
          simp only [String.append_assoc] at hu he
          refine ⟨"", "int32_t " ++ ("t" ++ toString cg.var_counter) ++ " = 0;\n", ?_⟩
          simp [codegenModuleCall, hu, he, hm, Codegen.freshVar, VType.isVoidPat,
            String.append_assoc]
          rfl
  · intro ps rt hu
    by_cases hv : rt.isVoidPat
    · have hrt := isVoidPat_eq hv
      subst hrt
      constructor
      · simp [codegenModuleCall, hu, hv, Codegen.freshVar, VType.isVoidPat]
      · simp [codegenModuleCall, hu, hv, Codegen.freshVar, VType.isVoidPat]
    · rw [Bool.not_eq_true] at hv
      constructor
      · simp [codegenModuleCall, hu, hv, Codegen.freshVar]
      · simp [codegenModuleCall, hu, hv, Codegen.freshVar]
  · intro e hu he
    by_cases hv : e.return_type.isVoidPat
    · have hrt := isVoidPat_eq hv
      constructor
      · simp [codegenModuleCall, hu, he, hv, Codegen.freshVar, hrt, VType.isVoidPat]
      · simp [codegenModuleCall, hu, he, hv, Codegen.freshVar, hrt, VType.isVoidPat]
    · rw [Bool.not_eq_true] at hv
      constructor
      · simp [codegenModuleCall, hu, he, hv, Codegen.freshVar]
      · simp [codegenModuleCall, hu, he, hv, Codegen.freshVar]
  · intro ps rt pub hu he hm
    by_cases hv : rt.isVoidPat
    · have hrt := isVoidPat_eq hv
      subst hrt
      constructor
      · simp [codegenModuleCall, hu, he, hm, hv, Codegen.freshVar, VType.isVoidPat]
      · simp [codegenModuleCall, hu, he, hm, hv, Codegen.freshVar, VType.isVoidPat]
    · rw [Bool.not_eq_true] at hv
      constructor
      · simp [codegenModuleCall, hu, he, hm, hv, Codegen.freshVar]
      · simp [codegenModuleCall, hu, he, hm, hv, Codegen.freshVar]
  · intro hu he hm
    simp only [String.append_assoc] at hu he
    refine ⟨?_, ?_, ?_⟩
    · simp [codegenModuleCall, hu, he, hm, Codegen.freshVar, VType.isVoidPat,
        String.append_assoc]
    · simp [codegenModuleCall, hu, he, hm, Codegen.freshVar, VType.isVoidPat,
        String.append_assoc]
      rfl
    · refine ⟨{ kind := "UndefinedModuleFunction",
                message := "Function '" ++ func ++ "' not found in module '" ++ module ++ "'",
                context :=
                  { primary_location := loc,
                    secondary_locations := [],
                    help_message := some ("Make sure the function '" ++ func ++ "' is defined and exported in module '" ++ module ++ "'"),
                    suggestions := ["Check if '" ++ func ++ "' is public in the module",
                                    "Verify the module was imported correctly"] },
                severity := DiagnosticSeverity.warning }, ?_, rfl, rfl⟩
      simp [codegenModuleCall, hu, he, hm, Codegen.freshVar, VType.isVoidPat,
        Diagnostics.warning, String.append_assoc]

/-- Witness for C5 at a concrete generator with empty symbol tables: a
call to `M.f(x)` emits `M_f(x);` plus the `int32_t` dummy, records one
`UndefinedModuleFunction` warning, and yields the `Void` placeholder. -/
theorem module_call_lowering_witness :
    ((codegenModuleCall
      { vars := [], user_functions := [], extern_functions := []
      , module_functions := [], structs := [], linked_libraries := []
      , module_init_functions := [], diagnostics := { entries := [] }
      , ir := { forward_decls := "", functions := "" }, var_counter := 0 }
      "M" "f" ["x"] "" ⟨0, 0⟩).2 = ("t0", VType.void)) ∧
    ((codegenModuleCall
      { vars := [], user_functions := [], extern_functions := []
      , module_functions := [], structs := [], linked_libraries := []
      , module_init_functions := [], diagnostics := { entries := [] }
      , ir := { forward_decls := "", functions := "" }, var_counter := 0 }
      "M" "f" ["x"] "" ⟨0, 0⟩).1.2 = "M_f(x);\nint32_t t0 = 0;\n") := by
  have h := (module_call_lowering
    { vars := [], user_functions := [], extern_functions := []
    , module_functions := [], structs := [], linked_libraries := []
    , module_init_functions := [], diagnostics := { entries := [] }
    , ir := { forward_decls := "", functions := "" }, var_counter := 0 }
    "M" "f" ["x"] "" ⟨0, 0⟩).2.2.2.2 rfl rfl rfl
  refine ⟨h.1, ?_⟩
  rw [h.2.1]
  rfl

/-- C3 counterexample: for `xs += t0` with `xs : i32[]` and a `bool[]`
right-hand side — a compound-assignment form covered by none of the
claim's first three bullets — the code records a TypeMismatch error
diagnostic and emits nothing, while the claim's final bullet requires
the literal C compound-operator statement. -/
theorem compound_assign_counterexample :
    codegenCompoundAssign xsSliceCodegen "xs" "+=" "t0"
        (VType.array VType.bool none) "" ⟨0, 0⟩ =
      StmtGen.err
        { xsSliceCodegen with diagnostics :=
            { entries :=
                [{ kind := "TypeMismatch"
                 , message := "Cannot append array with incompatible element type"
                 , context :=
                     { primary_location := ⟨0, 0⟩
                     , secondary_locations := []
                     , help_message := some "Array elements must have compatible types"
                     , suggestions := ["Convert elements to matching type"] }
                 , severity := DiagnosticSeverity.error }] } } "" ∧
    VType.typesCompatible VType.i32 VType.bool = false ∧
    ("" : String) ≠ "xs += t0;\n" := by
  have htc : VType.typesCompatible VType.i32 VType.bool = false := by
    conv_lhs => rw [VType.typesCompatible.eq_def]
    rfl
  refine ⟨?_, htc, by decide⟩
  simp [codegenCompoundAssign, Codegen.lookupVar, xsSliceCodegen, emptyCodegen,
    VType.isVoidPat, VType.isStrPat, VType.isStdStrPat, VType.isConstStrPat,
    htc, Diagnostics.error]

/-- C3 (amended): for a defined destination variable, the compound
assignment lowers exactly as the case analysis of
`compoundAssignAction` prescribes: `vix_extend` for array-to-array with
compatible (or Str/StdStr-mixed) element types, a TypeMismatch error
for incompatible arrays, `vix_push` for a compatible single element,
`vix_str_append_inplace` for string-typed destination and value, a
VoidOperation error for void operands, and the literal C compound
operator for every other form. -/
theorem compound_assign_amended (cg : Codegen)
    (name op valVar : String) (valTy : VType) (body : String)
    (loc : SourceLocation) (cName : String) (varTy : VType)
    (hv : cg.lookupVar name = some (cName, varTy)) :
    codegenCompoundAssign cg name op valVar valTy body loc =
      (match compoundAssignAction varTy valTy op with
       | .voidErrorA =>
           StmtGen.err (voidOpErrState cg loc) body
       | .typeMismatchA =>
           StmtGen.err (typeMismatchErrState cg loc) body
       | .extendA =>
           StmtGen.ok (ensureUnifiedExtend cg)
             (body ++ "vix_extend(" ++ cName ++ ", " ++ valVar ++ ");\n")
       | .pushA =>
           StmtGen.ok (ensureUnifiedPush cg)
             (body ++ "vix_push(" ++ cName ++ ", " ++ valVar ++ ");\n")
       | .strAppendA =>
           StmtGen.ok (ensureZeroAllocStringOps cg)
             (body ++ "vix_str_append_inplace(&" ++ cName ++ ", " ++ valVar ++ ");\n")
       | .literalA =>
           StmtGen.ok cg
             (body ++ cName ++ " " ++ op ++ " " ++ valVar ++ ";\n")) := by
  unfold codegenCompoundAssign compoundAssignAction voidOpErrState typeMismatchErrState
  rw [hv]
  dsimp only
  by_cases hvoid : varTy.isVoidPat = true ∨ valTy.isVoidPat = true
  · simp only [hvoid, if_pos]
  · rw [if_neg hvoid, if_neg hvoid]
    by_cases hop : op = "+="
    · rw [if_pos hop]
      rw [if_neg (show ¬ op ≠ "+=" by simp [hop])]
      cases varTy <;> cases valTy <;>
        simp_all [VType.isStrPat, VType.isStdStrPat, VType.isConstStrPat,
          VType.isVoidPat, codegenExtendUnified, codegenPushUnified,
          codegenStrAppendZeroAlloc] <;>
        split_ifs <;>
        first
        | (simp_all [codegenExtendUnified, codegenPushUnified,
            codegenStrAppendZeroAlloc]
           done)
        | (simp_all [codegenExtendUnified, codegenPushUnified,
            codegenStrAppendZeroAlloc] <;> tauto)
        | tauto
    · rw [if_neg hop, if_pos hop]

/-- Membership, by name, in the accumulator after the push step shared
by the `Call` arms of `stmt_calls` and `expr_calls`
(`src/Token/parser.rs` lines 2763-2770 and 2833-2840): a name is in
the result iff it was already there or it is the pushed name and the
pushed name is not a defined function. -/
theorem mem_pushUndefined (nm : String) (k : Nat) (defined : List String)
    (acc : List UndefinedFunction) (n : String) :
    n ∈ (List.map UndefinedFunction.name
        (if ¬ defined.contains nm ∧ ¬ acc.any (fun u => u.name = nm) then
          acc ++ [{ name := nm, call_location := ⟨0, 0⟩, args_count := k }]
        else acc)) ↔
      n ∈ List.map UndefinedFunction.name acc ∨ (n = nm ∧ nm ∉ defined) := by
  by_cases hd : nm ∈ defined
  · rw [if_neg (by simp [List.contains, List.elem_iff, hd])]
    simp [hd]
  · by_cases ha : acc.any (fun u => u.name = nm) = true
    · rw [if_neg (by simp [ha])]
      have hmem : nm ∈ List.map UndefinedFunction.name acc := by
        rcases List.any_eq_true.mp ha with ⟨u, hu, he⟩
        exact List.mem_map.mpr ⟨u, hu, by simpa using he⟩
      constructor
      · exact Or.inl
      · rintro (h | ⟨rfl, _⟩)
        · exact h
        · exact hmem
    · rw [if_pos ⟨by simp [List.contains, List.elem_iff, hd], by simp [ha]⟩]
      simp [hd]

mutual

/-- A name is reported by `exprCalls` iff it was already in the
accumulator, or it is a collected target of the expression
(`specExprCallTargets`) that is not a defined function. -/
theorem exprCalls_mem (e : Expr) (defined : List String) (ictx : ImportContext) :
    ∀ (acc : List UndefinedFunction) (n : String),
      n ∈ List.map UndefinedFunction.name (exprCalls e defined acc ictx) ↔
        n ∈ List.map UndefinedFunction.name acc ∨
          (n ∈ specExprCallTargets e ictx ∧ n ∉ defined) :=
  match e with
  | .number v => by
      intro acc n
      simp [show exprCalls (.number v) defined acc ictx = acc from rfl,
            show specExprCallTargets (.number v) ictx = ([] : List String) from rfl]
  | .stringLit s => by
      intro acc n
      simp [show exprCalls (.stringLit s) defined acc ictx = acc from rfl,
            show specExprCallTargets (.stringLit s) ictx = ([] : List String) from rfl]
  | .boolLit b => by
      intro acc n
      simp [show exprCalls (.boolLit b) defined acc ictx = acc from rfl,
            show specExprCallTargets (.boolLit b) ictx = ([] : List String) from rfl]
  | .noneLit => by
      intro acc n
      simp [show exprCalls .noneLit defined acc ictx = acc from rfl,
            show specExprCallTargets .noneLit ictx = ([] : List String) from rfl]
  | .someE e1 => by
      intro acc n
      simp [show exprCalls (.someE e1) defined acc ictx = acc from rfl,
            show specExprCallTargets (.someE e1) ictx = ([] : List String) from rfl]
  | .okE e1 => by
      intro acc n
      simp [show exprCalls (.okE e1) defined acc ictx = acc from rfl,
            show specExprCallTargets (.okE e1) ictx = ([] : List String) from rfl]
  | .errE e1 => by
      intro acc n
      simp [show exprCalls (.errE e1) defined acc ictx = acc from rfl,
            show specExprCallTargets (.errE e1) ictx = ([] : List String) from rfl]
  | .var nm => by
      intro acc n
      simp [show exprCalls (.var nm) defined acc ictx = acc from rfl,
            show specExprCallTargets (.var nm) ictx = ([] : List String) from rfl]
  | .call name args => by
      intro acc n
      rw [show exprCalls (.call name args) defined acc ictx =
            (if ictx.is_library_function name then acc
             else exprCallsList args defined
               (if ¬ defined.contains name ∧
                   ¬ acc.any (fun u => u.name = name) then
                  acc ++ [{ name := name, call_location := ⟨0, 0⟩
                          , args_count := args.length }]
                else acc) ictx) from rfl,
          show specExprCallTargets (.call name args) ictx =
            (if ictx.is_library_function name then []
             else name :: specExprsCallTargets args ictx) from rfl]
      by_cases hl : ictx.is_library_function name
      · simp [hl]
      · rw [if_neg hl, if_neg hl, exprCallsList_mem args defined ictx,
            mem_pushUndefined]
        constructor
        · rintro ((h | ⟨rfl, hd⟩) | ⟨ht, hd⟩)
          · exact Or.inl h
          · exact Or.inr ⟨List.mem_cons_self _ _, hd⟩
          · exact Or.inr ⟨List.mem_cons_of_mem _ ht, hd⟩
        · rintro (h | ⟨hc, hd⟩)
          · exact Or.inl (Or.inl h)
          · rcases List.mem_cons.mp hc with rfl | ht
            · exact Or.inl (Or.inr ⟨rfl, hd⟩)
            · exact Or.inr ⟨ht, hd⟩
  | .methodCall o m args => by
      intro acc n
      simp [show exprCalls (.methodCall o m args) defined acc ictx = acc from rfl,
            show specExprCallTargets (.methodCall o m args) ictx =
              ([] : List String) from rfl]
  | .staticMethodCall t m args => by
      intro acc n
      simp [show exprCalls (.staticMethodCall t m args) defined acc ictx = acc from rfl,
            show specExprCallTargets (.staticMethodCall t m args) ictx =
              ([] : List String) from rfl]
  | .moduleCall module func args => by
      intro acc n
      rw [show exprCalls (.moduleCall module func args) defined acc ictx =
            (if ictx.is_imported_symbol module then acc
             else exprCallsList args defined acc ictx) from rfl,
          show specExprCallTargets (.moduleCall module func args) ictx =
            (if ictx.is_imported_symbol module then []
             else specExprsCallTargets args ictx) from rfl]
      by_cases hm : ictx.is_imported_symbol module
      · simp [hm]
      · rw [if_neg hm, if_neg hm, exprCallsList_mem args defined ictx]
  | .moduleAccess m mem => by
      intro acc n
      simp [show exprCalls (.moduleAccess m mem) defined acc ictx = acc from rfl,
            show specExprCallTargets (.moduleAccess m mem) ictx =
              ([] : List String) from rfl]
  | .memberAccess o f => by
      intro acc n
      simp [show exprCalls (.memberAccess o f) defined acc ictx = acc from rfl,
            show specExprCallTargets (.memberAccess o f) ictx =
              ([] : List String) from rfl]
  | .index o i => by
      intro acc n
      simp [show exprCalls (.index o i) defined acc ictx = acc from rfl,
            show specExprCallTargets (.index o i) ictx = ([] : List String) from rfl]
  | .tuple exprs => by
      intro acc n
      rw [show exprCalls (.tuple exprs) defined acc ictx =
            exprCallsList exprs defined acc ictx from rfl,
          show specExprCallTargets (.tuple exprs) ictx =
            specExprsCallTargets exprs ictx from rfl,
          exprCallsList_mem exprs defined ictx]
  | .array exprs => by
      intro acc n
      rw [show exprCalls (.array exprs) defined acc ictx =
            exprCallsList exprs defined acc ictx from rfl,
          show specExprCallTargets (.array exprs) ictx =
            specExprsCallTargets exprs ictx from rfl,
          exprCallsList_mem exprs defined ictx]
  | .binOp op left right => by
      intro acc n
      rw [show exprCalls (.binOp op left right) defined acc ictx =
            exprCalls right defined (exprCalls left defined acc ictx) ictx from rfl,
          show specExprCallTargets (.binOp op left right) ictx =
            specExprCallTargets left ictx ++ specExprCallTargets right ictx from rfl,
          exprCalls_mem right defined ictx, exprCalls_mem left defined ictx]
      simp only [List.mem_append]
      tauto
  | .unOp op inner => by
      intro acc n
      rw [show exprCalls (.unOp op inner) defined acc ictx =
            exprCalls inner defined acc ictx from rfl,
          show specExprCallTargets (.unOp op inner) ictx =
            specExprCallTargets inner ictx from rfl,
          exprCalls_mem inner defined ictx]

theorem exprCallsList_mem (es : Exprs) (defined : List String) (ictx : ImportContext) :
    ∀ (acc : List UndefinedFunction) (n : String),
      n ∈ List.map UndefinedFunction.name (exprCallsList es defined acc ictx) ↔
        n ∈ List.map UndefinedFunction.name acc ∨
          (n ∈ specExprsCallTargets es ictx ∧ n ∉ defined) :=
  match es with
  | .nil => by
      intro acc n
      simp [show exprCallsList .nil defined acc ictx = acc from rfl,
            show specExprsCallTargets .nil ictx = ([] : List String) from rfl]
  | .cons e rest => by
      intro acc n
      rw [show exprCallsList (.cons e rest) defined acc ictx =
            exprCallsList rest defined (exprCalls e defined acc ictx) ictx from rfl,
          show specExprsCallTargets (.cons e rest) ictx =
            specExprCallTargets e ictx ++ specExprsCallTargets rest ictx from rfl,
          exprCallsList_mem rest defined ictx, exprCalls_mem e defined ictx]
      simp only [List.mem_append]
      tauto

end

mutual

/-- A name is reported by `stmtCalls` iff it was already in the
accumulator, or it is a collected target of the statement sequence
(`specStmtsCallTargets`) that is not a defined function. -/
theorem stmtCalls_mem (ss : Stmts) (defined : List String) (ictx : ImportContext) :
    ∀ (acc : List UndefinedFunction) (n : String),
      n ∈ List.map UndefinedFunction.name (stmtCalls ss defined acc ictx) ↔
        n ∈ List.map UndefinedFunction.name acc ∨
          (n ∈ specStmtsCallTargets ss ictx ∧ n ∉ defined) :=
  match ss with
  | .nil => by
      intro acc n
      simp [show stmtCalls .nil defined acc ictx = acc from rfl,
            show specStmtsCallTargets .nil ictx = ([] : List String) from rfl]
  | .cons s rest => by
      intro acc n
      rw [show stmtCalls (.cons s rest) defined acc ictx =
            stmtCalls rest defined (stmtCall s defined acc ictx) ictx from rfl,
          show specStmtsCallTargets (.cons s rest) ictx =
            specStmtCallTargets s ictx ++ specStmtsCallTargets rest ictx from rfl,
          stmtCalls_mem rest defined ictx, stmtCall_mem s defined ictx]
      simp only [List.mem_append]
      tauto

theorem stmtCall_mem (s : Stmt) (defined : List String) (ictx : ImportContext) :
    ∀ (acc : List UndefinedFunction) (n : String),
      n ∈ List.map UndefinedFunction.name (stmtCall s defined acc ictx) ↔
        n ∈ List.map UndefinedFunction.name acc ∨
          (n ∈ specStmtCallTargets s ictx ∧ n ∉ defined) :=
  match s with
  | .typedDeclaration nm ty v m => by
      intro acc n
      simp [show stmtCall (.typedDeclaration nm ty v m) defined acc ictx = acc from rfl,
            show specStmtCallTargets (.typedDeclaration nm ty v m) ictx =
              ([] : List String) from rfl]
  | .tupleUnpack nms v => by
      intro acc n
      simp [show stmtCall (.tupleUnpack nms v) defined acc ictx = acc from rfl,
            show specStmtCallTargets (.tupleUnpack nms v) ictx =
              ([] : List String) from rfl]
  | .assign nm v => by
      intro acc n
      rw [show stmtCall (.assign nm v) defined acc ictx =
            exprCalls v defined acc ictx from rfl,
          show specStmtCallTargets (.assign nm v) ictx =
            specExprCallTargets v ictx from rfl,
          exprCalls_mem v defined ictx]
  | .compoundAssign nm op v => by
      intro acc n
      rw [show stmtCall (.compoundAssign nm op v) defined acc ictx =
            exprCalls v defined acc ictx from rfl,
          show specStmtCallTargets (.compoundAssign nm op v) ictx =
            specExprCallTargets v ictx from rfl,
          exprCalls_mem v defined ictx]
  | .indexAssign o i v => by
      intro acc n
      simp [show stmtCall (.indexAssign o i v) defined acc ictx = acc from rfl,
            show specStmtCallTargets (.indexAssign o i v) ictx =
              ([] : List String) from rfl]
  | .memberAssign o f v => by
      intro acc n
      simp [show stmtCall (.memberAssign o f v) defined acc ictx = acc from rfl,
            show specStmtCallTargets (.memberAssign o f v) ictx =
              ([] : List String) from rfl]
  | .moduleAssign m mem v => by
      intro acc n
      simp [show stmtCall (.moduleAssign m mem v) defined acc ictx = acc from rfl,
            show specStmtCallTargets (.moduleAssign m mem v) ictx =
              ([] : List String) from rfl]
  | .moduleCompoundAssign m mem op v => by
      intro acc n
      simp [show stmtCall (.moduleCompoundAssign m mem op v) defined acc ictx =
              acc from rfl,
            show specStmtCallTargets (.moduleCompoundAssign m mem op v) ictx =
              ([] : List String) from rfl]
  | .ifS cond thenBody none => by
      intro acc n
      rw [show stmtCall (.ifS cond thenBody none) defined acc ictx =
            stmtCalls thenBody defined (exprCalls cond defined acc ictx) ictx from rfl,
          show specStmtCallTargets (.ifS cond thenBody none) ictx =
            specExprCallTargets cond ictx ++ specStmtsCallTargets thenBody ictx ++
              [] from rfl,
          List.append_nil,
          stmtCalls_mem thenBody defined ictx, exprCalls_mem cond defined ictx]
      simp only [List.mem_append]
      tauto
  | .ifS cond thenBody (some elseStmts) => by
      intro acc n
      rw [show stmtCall (.ifS cond thenBody (some elseStmts)) defined acc ictx =
            stmtCalls elseStmts defined
              (stmtCalls thenBody defined
                (exprCalls cond defined acc ictx) ictx) ictx from rfl,
          show specStmtCallTargets (.ifS cond thenBody (some elseStmts)) ictx =
            specExprCallTargets cond ictx ++ specStmtsCallTargets thenBody ictx ++
              specStmtsCallTargets elseStmts ictx from rfl,
          stmtCalls_mem elseStmts defined ictx, stmtCalls_mem thenBody defined ictx,
          exprCalls_mem cond defined ictx]
      simp only [List.mem_append]
      tauto
  | .whileS cond body => by
      intro acc n
      rw [show stmtCall (.whileS cond body) defined acc ictx =
            stmtCalls body defined (exprCalls cond defined acc ictx) ictx from rfl,
          show specStmtCallTargets (.whileS cond body) ictx =
            specExprCallTargets cond ictx ++ specStmtsCallTargets body ictx from rfl,
          stmtCalls_mem body defined ictx, exprCalls_mem cond defined ictx]
      simp only [List.mem_append]
      tauto
  | .forS v iter body => by
      intro acc n
      simp [show stmtCall (.forS v iter body) defined acc ictx = acc from rfl,
            show specStmtCallTargets (.forS v iter body) ictx =
              ([] : List String) from rfl]
  | .matchS scrutinee cases none => by
      intro acc n
      rw [show stmtCall (.matchS scrutinee cases none) defined acc ictx =
            matchCasesCalls cases defined
              (exprCalls scrutinee defined acc ictx) ictx from rfl,
          show specStmtCallTargets (.matchS scrutinee cases none) ictx =
            specExprCallTargets scrutinee ictx ++ specCasesCallTargets cases ictx ++
              [] from rfl,
          List.append_nil,
          matchCasesCalls_mem cases defined ictx,
          exprCalls_mem scrutinee defined ictx]
      simp only [List.mem_append]
      tauto
  | .matchS scrutinee cases (some defaultBody) => by
      intro acc n
      rw [show stmtCall (.matchS scrutinee cases (some defaultBody)) defined acc ictx =
            stmtCalls defaultBody defined
              (matchCasesCalls cases defined
                (exprCalls scrutinee defined acc ictx) ictx) ictx from rfl,
          show specStmtCallTargets (.matchS scrutinee cases (some defaultBody)) ictx =
            specExprCallTargets scrutinee ictx ++ specCasesCallTargets cases ictx ++
              specStmtsCallTargets defaultBody ictx from rfl,
          stmtCalls_mem defaultBody defined ictx,
          matchCasesCalls_mem cases defined ictx,
          exprCalls_mem scrutinee defined ictx]
      simp only [List.mem_append]
      tauto
  | .returnS none => by
      intro acc n
      simp [show stmtCall (.returnS none) defined acc ictx = acc from rfl,
            show specStmtCallTargets (.returnS none) ictx =
              ([] : List String) from rfl]
  | .returnS (some e) => by
      intro acc n
      rw [show stmtCall (.returnS (some e)) defined acc ictx =
            exprCalls e defined acc ictx from rfl,
          show specStmtCallTargets (.returnS (some e)) ictx =
            specExprCallTargets e ictx from rfl,
          exprCalls_mem e defined ictx]
  | .breakS => by
      intro acc n
      simp [show stmtCall .breakS defined acc ictx = acc from rfl,
            show specStmtCallTargets .breakS ictx = ([] : List String) from rfl]
  | .continueS => by
      intro acc n
      simp [show stmtCall .continueS defined acc ictx = acc from rfl,
            show specStmtCallTargets .continueS ictx = ([] : List String) from rfl]
  | .scope body => by
      intro acc n
      rw [show stmtCall (.scope body) defined acc ictx =
            stmtCalls body defined acc ictx from rfl,
          show specStmtCallTargets (.scope body) ictx =
            specStmtsCallTargets body ictx from rfl,
          stmtCalls_mem body defined ictx]
  | .unsafeS body => by
      intro acc n
      rw [show stmtCall (.unsafeS body) defined acc ictx =
            stmtCalls body defined acc ictx from rfl,
          show specStmtCallTargets (.unsafeS body) ictx =
            specStmtsCallTargets body ictx from rfl,
          stmtCalls_mem body defined ictx]
  | .call name args => by
      intro acc n
      rw [show stmtCall (.call name args) defined acc ictx =
            (if ictx.is_library_function name then acc
             else exprCallsList args defined
               (if ¬ defined.contains name ∧
                   ¬ acc.any (fun u => u.name = name) then
                  acc ++ [{ name := name, call_location := ⟨0, 0⟩
                          , args_count := args.length }]
                else acc) ictx) from rfl,
          show specStmtCallTargets (.call name args) ictx =
            (if ictx.is_library_function name then []
             else name :: specExprsCallTargets args ictx) from rfl]
      by_cases hl : ictx.is_library_function name
      · simp [hl]
      · rw [if_neg hl, if_neg hl, exprCallsList_mem args defined ictx,
            mem_pushUndefined]
        constructor
        · rintro ((h | ⟨rfl, hd⟩) | ⟨ht, hd⟩)
          · exact Or.inl h
          · exact Or.inr ⟨List.mem_cons_self _ _, hd⟩
          · exact Or.inr ⟨List.mem_cons_of_mem _ ht, hd⟩
        · rintro (h | ⟨hc, hd⟩)
          · exact Or.inl (Or.inl h)
          · rcases List.mem_cons.mp hc with rfl | ht
            · exact Or.inl (Or.inr ⟨rfl, hd⟩)
            · exact Or.inr ⟨ht, hd⟩
  | .moduleCall module func args => by
      intro acc n
      rw [show stmtCall (.moduleCall module func args) defined acc ictx =
            (if ictx.is_imported_symbol module then acc
             else exprCallsList args defined acc ictx) from rfl,
          show specStmtCallTargets (.moduleCall module func args) ictx =
            (if ictx.is_imported_symbol module then []
             else specExprsCallTargets args ictx) from rfl]
      by_cases hm : ictx.is_imported_symbol module
      · simp [hm]
      · rw [if_neg hm, if_neg hm, exprCallsList_mem args defined ictx]
  | .exprS e => by
      intro acc n
      simp [show stmtCall (.exprS e) defined acc ictx = acc from rfl,
            show specStmtCallTargets (.exprS e) ictx = ([] : List String) from rfl]
  | .function f => by
      intro acc n
      simp [show stmtCall (.function f) defined acc ictx = acc from rfl,
            show specStmtCallTargets (.function f) ictx = ([] : List String) from rfl]
  | .structDefS nm => by
      intro acc n
      simp [show stmtCall (.structDefS nm) defined acc ictx = acc from rfl,
            show specStmtCallTargets (.structDefS nm) ictx =
              ([] : List String) from rfl]
  | .enumDefS nm => by
      intro acc n
      simp [show stmtCall (.enumDefS nm) defined acc ictx = acc from rfl,
            show specStmtCallTargets (.enumDefS nm) ictx =
              ([] : List String) from rfl]
  | .moduleDef nm body pub => by
      intro acc n
      simp [show stmtCall (.moduleDef nm body pub) defined acc ictx = acc from rfl,
            show specStmtCallTargets (.moduleDef nm body pub) ictx =
              ([] : List String) from rfl]
  | .typeAlias nm ty => by
      intro acc n
      simp [show stmtCall (.typeAlias nm ty) defined acc ictx = acc from rfl,
            show specStmtCallTargets (.typeAlias nm ty) ictx =
              ([] : List String) from rfl]
  | .moduleExports nms => by
      intro acc n
      simp [show stmtCall (.moduleExports nms) defined acc ictx = acc from rfl,
            show specStmtCallTargets (.moduleExports nms) ictx =
              ([] : List String) from rfl]

theorem matchCasesCalls_mem (cases : MatchCases) (defined : List String)
    (ictx : ImportContext) :
    ∀ (acc : List UndefinedFunction) (n : String),
      n ∈ List.map UndefinedFunction.name (matchCasesCalls cases defined acc ictx) ↔
        n ∈ List.map UndefinedFunction.name acc ∨
          (n ∈ specCasesCallTargets cases ictx ∧ n ∉ defined) :=
  match cases with
  | .nil => by
      intro acc n
      simp [show matchCasesCalls .nil defined acc ictx = acc from rfl,
            show specCasesCallTargets .nil ictx = ([] : List String) from rfl]
  | .cons (.mk value body) rest => by
      intro acc n
      rw [show matchCasesCalls (.cons (.mk value body) rest) defined acc ictx =
            matchCasesCalls rest defined
              (stmtCalls body defined
                (exprCalls value defined acc ictx) ictx) ictx from rfl,
          show specCasesCallTargets (.cons (.mk value body) rest) ictx =
            specExprCallTargets value ictx ++ specStmtsCallTargets body ictx ++
              specCasesCallTargets rest ictx from rfl,
          matchCasesCalls_mem rest defined ictx, stmtCalls_mem body defined ictx,
          exprCalls_mem value defined ictx]
      simp only [List.mem_append]
      tauto

end

/-- A name is reported by the `for func in functions` loop of
`find_undefined_functions` iff it was already in the accumulator, or
it is a collected target of some scanned function body that is not a
defined function. -/
theorem foldl_stmtCalls_mem (ictx : ImportContext) (defined : List String) :
    ∀ (fs : List Function) (acc : List UndefinedFunction) (n : String),
      n ∈ List.map UndefinedFunction.name
          (fs.foldl (fun acc func => stmtCalls func.body defined acc ictx) acc) ↔
        n ∈ List.map UndefinedFunction.name acc ∨
          ((∃ f, f ∈ fs ∧ n ∈ specStmtsCallTargets f.body ictx) ∧ n ∉ defined) := by
  intro fs
  induction fs with
  | nil => intro acc n; simp
  | cons f fs ih =>
      intro acc n
      rw [List.foldl_cons, ih, stmtCalls_mem f.body defined ictx]
      simp only [List.mem_cons]
      constructor
      · rintro ((h | ⟨ht, hd⟩) | ⟨⟨g, hg, hgt⟩, hd⟩)
        · exact Or.inl h
        · exact Or.inr ⟨⟨f, Or.inl rfl, ht⟩, hd⟩
        · exact Or.inr ⟨⟨g, Or.inr hg, hgt⟩, hd⟩
      · rintro (h | ⟨⟨g, (rfl | hg), hgt⟩, hd⟩)
        · exact Or.inl (Or.inl h)
        · exact Or.inl (Or.inr ⟨hgt, hd⟩)
        · exact Or.inr ⟨⟨g, hg, hgt⟩, hd⟩

/-- C2 counterexample, three divergences from the claim.  (1) For a
program whose only function body is the single module call `M.f()` —
where `M` is no imported library or symbol, `f` is exported by no
module and `f` is not a defined function — the analysis returns the
empty set, although the claim requires the `ModuleCall` target `f` to
be reported.  (2) After `import bar from foo`, the call `bar()` is
reported although `bar` is in the ImportContext symbol set, which the
claim says shields it.  (3) A call `g()` inside a `for` body is not
reported although the claim requires every function body to be
traversed. -/
theorem undefined_functions_counterexample :
    ((findUndefinedFunctions
        [Function.mk "main" [] VType.i32
          (.cons (Stmt.moduleCall "M" "f" .nil) .nil) false []]
        [] (buildImportContext [])).library_functions = [] ∧
      (buildImportContext []).is_library_function "f" = false ∧
      (buildImportContext []).is_imported_symbol "f" = false ∧
      (buildImportContext []).is_module_function "f" = false ∧
      (buildImportContext []).is_library_function "M" = false ∧
      (buildImportContext []).is_imported_symbol "M" = false ∧
      ("f" : String) ≠ "main") ∧
    (List.map (fun u => u.name)
        (findUndefinedFunctions
          [Function.mk "main" [] VType.i32
            (.cons (Stmt.call "bar" .nil) .nil) false []]
          [] (buildImportContext
                [ImportDecl.fileImport "bar" "foo"])).library_functions = ["bar"] ∧
      (buildImportContext
        [ImportDecl.fileImport "bar" "foo"]).is_imported_symbol "bar" = true) ∧
    ((findUndefinedFunctions
        [Function.mk "main" [] VType.i32
          (.cons (Stmt.forS "i" (Expr.var "xs")
            (.cons (Stmt.call "g" .nil) .nil)) .nil) false []]
        [] (buildImportContext [])).library_functions = [] ∧
      (buildImportContext []).is_library_function "g" = false ∧
      (buildImportContext []).is_imported_symbol "g" = false ∧
      ("g" : String) ≠ "main") := by
  exact ⟨⟨rfl, rfl, rfl, rfl, rfl, rfl, by decide⟩, ⟨rfl, rfl⟩,
         ⟨rfl, rfl, rfl, by decide⟩⟩

/-- C2 (amended): a name is reported by the undefined-function
analysis iff it is a `Call` target collected by the traversal
(`specStmtsCallTargets`: `ModuleCall` targets are never collected, a
module call whose module is an imported symbol is skipped entirely
and otherwise only its arguments are scanned, a call to a
library import is skipped together with its arguments, and only the
statement and expression forms listed in the collector are visited)
from some function body, and is not a user function or
extern-declared name; and for the S6 program `import foo; func
main(): i32 foo.bar(); baz() end`, with the library `foo` imported,
the analysis reports exactly `baz` (not `bar`, not `foo`). -/
theorem undefined_functions_amended :
    (∀ (functions : List Function) (externs : List ExternDecl)
       (ictx : ImportContext) (n : String),
      n ∈ List.map UndefinedFunction.name
          (findUndefinedFunctions functions externs ictx).library_functions ↔
        ((∃ f, f ∈ functions ∧ n ∈ specStmtsCallTargets f.body ictx) ∧
          n ∉ definedFunctionNames functions externs)) ∧
    List.map (fun u => u.name)
      (findUndefinedFunctions
        [Function.mk "main" [] VType.i32
          (.cons (Stmt.moduleCall "foo" "bar" .nil)
            (.cons (Stmt.call "baz" .nil) .nil)) false []]
        [] (buildImportContext
              [ImportDecl.libraryImport "foo"])).library_functions = ["baz"] := by
  constructor
  · intro functions externs ictx n
    rw [show (findUndefinedFunctions functions externs ictx).library_functions =
          functions.foldl
            (fun acc func =>
              stmtCalls func.body (definedFunctionNames functions externs) acc ictx)
            [] from rfl,
        foldl_stmtCalls_mem]
    simp
  · rfl
/-- Witness for the amended C3: pushing a compatible `i32` element onto
`xs : i32[]` lowers to `vix_push(xs, t0);`. -/
theorem compound_assign_amended_witness :
    codegenCompoundAssign xsSliceCodegen "xs" "+=" "t0"
        (VType.int 32 true) "" ⟨0, 0⟩ =
      StmtGen.ok (ensureUnifiedPush xsSliceCodegen) "vix_push(xs, t0);\n" := by
  rw [compound_assign_amended xsSliceCodegen "xs" "+=" "t0"
      (VType.int 32 true) "" ⟨0, 0⟩ "xs" (VType.array VType.i32 none) rfl]
  have htc : VType.typesCompatible VType.i32 (VType.int 32 true) = true := by
    conv_lhs => rw [VType.typesCompatible.eq_def]
    rfl
  have hact : compoundAssignAction (VType.array VType.i32 none)
      (VType.int 32 true) "+=" = CAAction.pushA := by
    simp [compoundAssignAction, VType.isVoidPat, VType.isStrPat, htc]
  rw [hact]
  rfl

/-- Witness for C9 at a concrete generator state: the empty buffer does
not contain the marker, and three iterated calls append the helper text
exactly once. -/
theorem ensure_helpers_emit_once_witness :
    strContains
      ({ vars := [], user_functions := [], extern_functions := []
       , module_functions := [], structs := [], linked_libraries := []
       , module_init_functions := []
       , diagnostics := { entries := [] }
       , ir := { forward_decls := "", functions := "" }
       , var_counter := 0 } : Codegen).ir.functions "vix_push" = false ∧
    (ensureUnifiedPush^[3]
      ({ vars := [], user_functions := [], extern_functions := []
       , module_functions := [], structs := [], linked_libraries := []
       , module_init_functions := []
       , diagnostics := { entries := [] }
       , ir := { forward_decls := "", functions := "" }
       , var_counter := 0 } : Codegen)).ir.functions = "" ++ pushHelperText := by
  constructor
  · decide
  · rw [ensure_helpers_emit_once.2.2.2.1 _ 3 (by omega)]
    exact ensure_helpers_emit_once.2.2.2.2.1 _ (by decide)

/-- The recovery loop of `expect` satisfies its postcondition for every
start state and skip budget. -/
theorem expectLoop_spec (expected : Token) (sync : List Token) :
    ∀ (n : Nat) (q : Parser) (s : Nat), n = 50 - s →
      expectLoopPost q (Parser.expectLoop q expected sync s)
        expected sync n := by
  intro n
  induction n with
  | zero =>
    intro q s hs
    have hs50 : ¬ s < 50 := by omega
    have hguard : ¬ (q.pos < q.tokens.length ∧ s < 50) :=
      fun hc => hs50 hc.2
    rw [Parser.expectLoop.eq_def, dif_neg hguard]
    refine ⟨rfl, rfl, rfl, Nat.le_refl _, by omega,
      Or.inr (Or.inr (Or.inr ⟨by omega, ?_⟩))⟩
    intro i h1 h2
    omega
  | succ n ih =>
    intro q s hs
    have hs' : s < 50 := by omega
    rw [Parser.expectLoop.eq_def]
    by_cases hp : q.pos < q.tokens.length
    · rw [dif_pos ⟨hp, hs'⟩]
      have hcur : q.tokens.get? q.pos = some q.current := by
        unfold Parser.current
        rw [List.get?_eq_get hp]
        rfl
      have hap : q.advance.pos = q.pos + 1 := rfl
      by_cases hce : q.current = expected
      · rw [if_pos hce]
        refine ⟨rfl, rfl, rfl, by rw [hap]; omega, by rw [hap]; omega,
          Or.inl ⟨by rw [hap]; omega, ?_, ?_⟩⟩
        · rw [hap, Nat.add_sub_cancel, hcur, hce]
        · intro i hi1 hi2
          rw [hap] at hi2
          omega
      · rw [if_neg hce]
        by_cases hcs : sync.contains q.current
        · rw [if_pos hcs]
          exact ⟨rfl, rfl, rfl, Nat.le_refl _, by omega,
            Or.inr (Or.inl ⟨⟨q.current, hcur, Or.inl hcs⟩,
              fun i h1 h2 => absurd (Nat.lt_of_le_of_lt h1 h2)
                (Nat.lt_irrefl _)⟩)⟩
        · rw [if_neg hcs]
          by_cases hcEOF : q.current = Token.EOF
          · rw [if_pos hcEOF]
            exact ⟨rfl, rfl, rfl, Nat.le_refl _, by omega,
              Or.inr (Or.inl ⟨⟨q.current, hcur, Or.inr hcEOF⟩,
                fun i h1 h2 => absurd (Nat.lt_of_le_of_lt h1 h2)
                  (Nat.lt_irrefl _)⟩)⟩
          · rw [if_neg hcEOF]
            have hrec := ih q.advance (s + 1) (by omega)
            obtain ⟨ht, hsp, hd, hle, hub, hcls⟩ := hrec
            have hat : q.advance.tokens = q.tokens := rfl
            have hasp : q.advance.spans = q.spans := rfl
            have had : q.advance.diags = q.diags := rfl
            rw [hat] at ht hcls
            rw [hasp] at hsp
            rw [had] at hd
            rw [hap] at hle hub hcls
            have hnstop : nonStopAt q.tokens expected sync q.pos :=
              ⟨q.current, hcur, hce, by
                rw [Bool.not_eq_true] at hcs
                exact hcs, hcEOF⟩
            have hext : ∀ (bound : Nat),
                (∀ i, q.pos + 1 ≤ i → i < bound →
                  nonStopAt q.tokens expected sync i) →
                ∀ i, q.pos ≤ i → i < bound →
                  nonStopAt q.tokens expected sync i := by
              intro bound hall i h1 h2
              rcases Nat.eq_or_lt_of_le h1 with he | hl
              · rw [← he]
                exact hnstop
              · exact hall i hl h2
            refine ⟨ht, hsp, hd, by omega, by omega, ?_⟩
            rcases hcls with h1 | h2 | h3 | h4
            · exact Or.inl ⟨by omega, h1.2.1, hext _ h1.2.2⟩
            · exact Or.inr (Or.inl ⟨h2.1, hext _ h2.2⟩)
            · exact Or.inr (Or.inr (Or.inl ⟨h3.1, hext _ h3.2⟩))
            · exact Or.inr (Or.inr (Or.inr ⟨by omega, hext _ h4.2⟩))
    · rw [dif_neg (fun hc => hp hc.1)]
      refine ⟨rfl, rfl, rfl, Nat.le_refl _, by omega,
        Or.inr (Or.inr (Or.inl ⟨by omega, ?_⟩))⟩
      intro i hi1 hi2
      omega

/-- C6: for every parser state, expected token and sync set, `expect`
terminates with the token buffer intact and the position never
decreased and advanced by at most 50; when the expected token is
current it is consumed with no diagnostic recorded; otherwise exactly
one error diagnostic is recorded, and the recovery scan skipped only
non-stopping tokens before either consuming the expected token,
stopping unconsumed at a sync-set member or an `EOF` token, running off
the end of the buffer, or exhausting its 50-token budget. -/
theorem expect_spec (p : Parser) (expected : Token) (sync : List Token) :
    (p.expect expected sync).tokens = p.tokens ∧
    (p.expect expected sync).spans = p.spans ∧
    p.pos ≤ (p.expect expected sync).pos ∧
    (p.expect expected sync).pos ≤ p.pos + 50 ∧
    (p.current = expected →
      p.expect expected sync = { p with pos := p.pos + 1 }) ∧
    (p.current ≠ expected →
      (∃ d, d.severity = DiagnosticSeverity.error ∧
        (p.expect expected sync).diags = p.diags ++ [d]) ∧
      ((p.pos < (p.expect expected sync).pos ∧
          p.tokens.get? ((p.expect expected sync).pos - 1) = some expected ∧
          ∀ i, p.pos ≤ i → i < (p.expect expected sync).pos - 1 →
            nonStopAt p.tokens expected sync i) ∨
       ((∃ t, p.tokens.get? (p.expect expected sync).pos = some t ∧
            (sync.contains t = true ∨ t = Token.EOF)) ∧
          ∀ i, p.pos ≤ i → i < (p.expect expected sync).pos →
            nonStopAt p.tokens expected sync i) ∨
       (p.tokens.length ≤ (p.expect expected sync).pos ∧
          ∀ i, p.pos ≤ i → i < (p.expect expected sync).pos →
            nonStopAt p.tokens expected sync i) ∨
       ((p.expect expected sync).pos = p.pos + 50 ∧
          ∀ i, p.pos ≤ i → i < (p.expect expected sync).pos →
            nonStopAt p.tokens expected sync i))) := by
  by_cases hce : p.current = expected
  · have he : p.expect expected sync = p.advance := by
      unfold Parser.expect
      rw [if_pos hce]
    rw [he]
    refine ⟨rfl, rfl, by simp [Parser.advance], by simp [Parser.advance],
      fun _ => rfl, fun hne => absurd hce hne⟩
  · have he : p.expect expected sync =
        Parser.expectLoop
          { p with diags := p.diags ++
              [{ message := "Expected token not found"
               , span := p.currentSpan
               , severity := DiagnosticSeverity.error
               , help := none }] } expected sync 0 := by
      unfold Parser.expect
      rw [if_neg hce]
    have hl := expectLoop_spec expected sync 50
      { p with diags := p.diags ++
          [{ message := "Expected token not found"
           , span := p.currentSpan
           , severity := DiagnosticSeverity.error
           , help := none }] } 0 (by omega)
    obtain ⟨ht, hsp, hd, hle, hub, hcls⟩ := hl
    rw [he]
    refine ⟨ht, hsp, hle, hub, fun hc => absurd hc hce, fun _ => ⟨?_, ?_⟩⟩
    · exact ⟨_, rfl, by rw [hd]⟩
    · exact hcls

/-- Witness for C6 at a concrete state: expecting a semicolon while the
buffer holds a single colon keeps the buffer intact and records one
error diagnostic. -/
theorem expect_spec_witness :
    ((⟨[Token.Colon], [⟨0, 1⟩], 0, []⟩ : Parser).expect
        Token.Semicolon []).tokens = [Token.Colon] ∧
    (∃ d, d.severity = DiagnosticSeverity.error ∧
      ((⟨[Token.Colon], [⟨0, 1⟩], 0, []⟩ : Parser).expect
          Token.Semicolon []).diags = [] ++ [d]) := by
  have h := expect_spec ⟨[Token.Colon], [⟨0, 1⟩], 0, []⟩ Token.Semicolon []
  exact ⟨h.1, (h.2.2.2.2.2 (by decide)).1⟩

end Vix
